import Mathlib

/-!
Shallow embedding of the synthetics trigger-and-wait subsystem of the
datadog-ci command line tool, together with theorems checking its
natural-language specification against the code.

The embedding follows the TypeScript sources.  The interfaces module is not
part of the provided sources, so the record types below are reconstructed
from the fields the code reads and writes.  Asynchronous behaviour (the
polling loop) is embedded by passing the observable inputs of each loop
iteration (elapsed time, tunnel liveness, poll outcome) explicitly as data.
JavaScript objects are embedded as association lists with update-or-append
semantics so that key insertion order is preserved, as in the runtime.
Reporter arguments of functions that only emit diagnostics through them are
dropped.  Helpers that live in modules outside the provided sources are
modelled from the spec and marked as such in their doc comments.
-/

set_option maxHeartbeats 2000000

-- # Data model

/-- Execution rule of a test, from the `ExecutionRule` enum. -/
inductive ExecutionRule
  | BLOCKING
  | NON_BLOCKING
  | SKIPPED
deriving DecidableEq

/-- Error kinds of the `ERRORS` enum from the api module.  The `error` field
of a result is a string at runtime; values other than the three enum members
are represented by the `other` constructor. -/
inductive ERRORS
  | ENDPOINT
  | TIMEOUT
  | TUNNEL
  | other (message : String)
deriving DecidableEq

/-- Device description attached to a result. -/
structure Device where
  height : Nat
  id : String
  width : Nat
deriving DecidableEq

/-- Inner result of a poll result, with the fields the code under test
reads or writes.  Optional fields model properties that may be undefined. -/
structure Result where
  device : Device
  duration : Nat
  error : Option ERRORS := none
  errorCode : Option String := none
  eventType : String
  passed : Option Bool := none
  startUrl : String := ""
  stepDetails : List String := []
  tunnel : Bool := false
  unhealthy : Option Bool := none
deriving DecidableEq

/-- A poll result as returned by the backend. -/
structure PollResult where
  dc_id : Int
  result : Result
  resultID : String
  timestamp : Int
deriving DecidableEq

/-- One trigger response item per submitted payload. -/
structure TriggerResponse where
  public_id : String
  result_id : String
  device : String
  location : Int
deriving DecidableEq

/-- A trigger response augmented with the polling state. -/
structure TriggerResult where
  public_id : String
  result_id : String
  device : String
  location : Int
  pollingTimeout : Nat
  result : Option PollResult := none
deriving DecidableEq

/-- User-supplied configuration override for one test, with the recognised
option keys. -/
structure ConfigOverride where
  allowInsecureCertificates : Option Bool := none
  basicAuth : Option String := none
  body : Option String := none
  bodyType : Option String := none
  cookies : Option String := none
  defaultStepTimeout : Option Nat := none
  deviceIds : Option (List String) := none
  executionRule : Option ExecutionRule := none
  followRedirects : Option Bool := none
  headers : Option (List (String × String)) := none
  locations : Option (List String) := none
  pollingTimeout : Option Nat := none
  retry : Option Nat := none
  startUrl : Option String := none
  startUrlSubstitutionRegex : Option String := none
  tunnel : Option Bool := none
  «variables» : Option (List (String × String)) := none
deriving DecidableEq

/-- A trigger config: test identifier plus override, optionally a suite name. -/
structure TriggerConfig where
  id : String
  config : ConfigOverride
  suite : Option String := none
deriving DecidableEq

/-- The request part of a test configuration. -/
structure RequestConfig where
  url : String
deriving DecidableEq

/-- Server-side configuration of a test. -/
structure TestConfig where
  request : RequestConfig
deriving DecidableEq

/-- The ci block of the server-side test options. -/
structure CiTestOptions where
  executionRule : Option ExecutionRule := none
deriving DecidableEq

/-- Server-side test options. -/
structure TestOptions where
  ci : Option CiTestOptions := none
deriving DecidableEq

/-- The backend description of a test, with the fields the code reads. -/
structure InternalTest where
  type : String
  subtype : Option String := none
  config : TestConfig
  options : Option TestOptions := none
  suite : Option String := none
deriving DecidableEq

/-- The payload submitted to the backend for one test. -/
structure TestPayload where
  executionRule : ExecutionRule
  public_id : String
  allowInsecureCertificates : Option Bool := none
  basicAuth : Option String := none
  body : Option String := none
  bodyType : Option String := none
  cookies : Option String := none
  defaultStepTimeout : Option Nat := none
  deviceIds : Option (List String) := none
  followRedirects : Option Bool := none
  headers : Option (List (String × String)) := none
  locations : Option (List String) := none
  pollingTimeout : Option Nat := none
  retry : Option Nat := none
  startUrlSubstitutionRegex : Option String := none
  tunnel : Option Bool := none
  «variables» : Option (List (String × String)) := none
  startUrl : Option String := none
deriving DecidableEq

/-- Aggregate counters of one invocation.  The set of not-found identifiers
is embedded as a duplicate-free list. -/
structure Summary where
  criticalErrors : Nat := 0
  failed : Nat := 0
  passed : Nat := 0
  skipped : Nat := 0
  testsNotFound : List String := []
  timedOut : Nat := 0
deriving DecidableEq

/-- createSummary from the source. -/
def createSummary : Summary := {}

/-- An HTTP response attached to a thrown error. -/
structure HttpResponse where
  status : Nat
deriving DecidableEq

/-- A JavaScript error value as thrown by the backend client: a message and
an optional HTTP response. -/
structure JsError where
  message : String := ""
  response : Option HttpResponse := none
deriving DecidableEq

-- # JavaScript object and string helpers

/-- Lookup of a property in an object embedded as an association list. -/
def jsLookup {κ α : Type} [BEq κ] (m : List (κ × α)) (k : κ) : Option α :=
  (m.find? (fun p => p.1 == k)).map (fun p => p.2)

/-- Property assignment on an object embedded as an association list: an
existing key keeps its position and gets the new value, a new key is
appended, matching runtime key-insertion order. -/
def jsObjSet {κ α : Type} [BEq κ] (m : List (κ × α)) (k : κ) (v : α) : List (κ × α) :=
  if m.any (fun p => p.1 == k) then
    m.map (fun p => if p.1 == k then (k, v) else p)
  else m ++ [(k, v)]

/-- Whether pat is a prefix of s, on character lists. -/
def listHasPre : List Char → List Char → Bool
  | [], _ => true
  | _ :: _, [] => false
  | a :: pa, b :: sb => a == b && listHasPre pa sb

/-- Whether pat occurs as a contiguous substring of s, on character lists. -/
def listHasSub (pat : List Char) : List Char → Bool
  | [] => listHasPre pat []
  | b :: sb => listHasPre pat (b :: sb) || listHasSub pat sb

/-- String.prototype.includes. -/
def jsIncludes (s pat : String) : Bool :=
  listHasSub pat.toList s.toList

/-- Removal of the first occurrence of pat, as String.prototype.replace
with an empty replacement string does, on character lists. -/
def removeFirst (pat : List Char) : List Char → List Char
  | [] => []
  | c :: s =>
    if listHasPre pat (c :: s) then (c :: s).drop pat.length
    else c :: removeFirst pat s

/-- JavaScript whitespace as matched by the template regex. -/
def jsWhitespace (c : Char) : Bool :=
  c == ' ' || c == '\t' || c == '\n' || c == '\r' || c == '\x0b' || c == '\x0c'

/-- Removal of leading and trailing whitespace. -/
def trimChars (l : List Char) : List Char :=
  ((l.dropWhile jsWhitespace).reverse.dropWhile jsWhitespace).reverse

/-- String conversion of a possibly-undefined replacement value, as the
runtime String() conversion of the replacer return value. -/
def jsToString : Option String → String
  | some s => s
  | none => "undefined"

-- # URL template rendering (template and parseUrlVariables)

/-- Scan of the interior of a template placeholder: the characters up to
the first closing double brace, failing when a stray brace occurs before
it, since the template regex admits only non-brace characters inside. -/
def scanInner : List Char → Option (List Char × List Char)
  | [] => none
  | c :: rest =>
    if c = '\x7d' then
      match rest with
      | '\x7d' :: tail => some ([], tail)
      | _ => none
    else if c = '\x7b' then none
    else
      match scanInner rest with
      | some (inner, tail) => some (c :: inner, tail)
      | none => none

theorem scanInner_tail_le : ∀ (l inner tail : List Char),
    scanInner l = some (inner, tail) → tail.length < l.length := by
  intro l
  induction l with
  | nil => intro inner tail h; simp [scanInner] at h
  | cons c rest ih =>
    intro inner tail h
    simp only [scanInner] at h
    split at h
    · split at h
      · simp only [Option.some.injEq, Prod.mk.injEq] at h
        obtain ⟨h1, h2⟩ := h
        subst h2
        simp
        omega
      · exact absurd h (by simp)
    · split at h
      · exact absurd h (by simp)
      · split at h
        · rename_i inner2 tail2 heq
          simp only [Option.some.injEq, Prod.mk.injEq] at h
          obtain ⟨h1, h2⟩ := h
          subst h2
          have := ih inner2 tail2 heq
          simp
          omega
        · exact absurd h (by simp)

/-- One pass of the template replacement: the global regex scan over the
input.  A placeholder whose trimmed name is a key of the context is
replaced by the String conversion of its value (undefined rendering as the
string undefined); otherwise the whole match is left verbatim.  When a
double opening brace does not complete a match the scan advances one
character, as the regex engine does. -/
def templateAux (context : List (String × Option String)) : List Char → List Char
  | [] => []
  | '\x7b' :: '\x7b' :: rest2 =>
    match h : scanInner rest2 with
    | some (inner, tail) =>
      (match jsLookup context (trimChars inner).asString with
       | some v => (jsToString v).toList
       | none => '\x7b' :: '\x7b' :: (inner ++ ['\x7d', '\x7d'])) ++
        templateAux context tail
    | none => '\x7b' :: templateAux context ('\x7b' :: rest2)
  | c :: rest => c :: templateAux context rest
termination_by l => l.length
decreasing_by
  · simp
    have := scanInner_tail_le rest2 inner tail h
    omega
  · simp
  · simp [Nat.lt_succ_self]

/-- The template function from the source. -/
def template (st : String) (context : List (String × Option String)) : String :=
  (templateAux context st.toList).asString

/-- A placeholder name without braces, as the template regex requires. -/
def braceFree (l : List Char) : Bool :=
  l.all (fun c => c != '\x7b' && c != '\x7d')

/-- Whether at least two non-newline characters follow, for the two-to-five
character tail of the subdomain regex lookahead. -/
def twoAnyAfter : List Char → Bool
  | x :: y :: _ => x != '\n' && y != '\n'
  | _ => false

/-- The lookahead of the subdomain regex: a slash-free run, then a dot,
then at least two further characters. -/
def subLookahead : List Char → Bool
  | [] => false
  | c :: rest => (c == '.' && twoAnyAfter rest) || (c != '/' && subLookahead rest)

/-- The first match of the subdomain regex over the hostname: the shortest
newline-free prefix followed by a dot whose remainder passes the lookahead;
the returned value is the capture group (the subdomain). -/
def subdomainSplit : List Char → Option (List Char)
  | [] => none
  | c :: rest =>
    if c = '.' ∧ subLookahead rest then some []
    else if c = '\n' then subdomainSplit rest
    else (subdomainSplit rest).map (fun g => c :: g)

/-- The parts of a parsed URL, as exposed by the runtime URL class.  URL
parsing itself is a platform builtin outside the sources and is supplied as
an input of the embedding. -/
structure UrlParts where
  hash : String := ""
  host : String := ""
  hostname : String := ""
  origin : String := ""
  pathname : String := ""
  port : String := ""
  protocol : String := ""
  search : String := ""
deriving DecidableEq

/-- parseUrlVariables from the source, with the process environment and the
outcome of the URL constructor supplied as inputs.  When the URL fails to
parse only the environment (plus URL) is returned; otherwise the reserved
keys are assigned, SUBDOMAIN receiving undefined when the hostname has no
subdomain match. -/
def parseUrlVariables (env : List (String × String)) (url : String)
    (parsed : Option UrlParts) : List (String × Option String) :=
  let context := env.foldl (fun m p => jsObjSet m p.1 (some p.2)) []
  let context := jsObjSet context "URL" (some url)
  match parsed with
  | none => context
  | some objUrl =>
    let subdomainMatch := subdomainSplit objUrl.hostname.toList
    let domain :=
      match subdomainMatch with
      | some g => (removeFirst (g ++ ['.']) objUrl.hostname.toList).asString
      | none => objUrl.hostname
    let context := jsObjSet context "DOMAIN" (some domain)
    let context := jsObjSet context "HASH" (some objUrl.hash)
    let context := jsObjSet context "HOST" (some objUrl.host)
    let context := jsObjSet context "HOSTNAME" (some objUrl.hostname)
    let context := jsObjSet context "ORIGIN" (some objUrl.origin)
    let context := jsObjSet context "PARAMS" (some objUrl.search)
    let context := jsObjSet context "PATHNAME" (some objUrl.pathname)
    let context := jsObjSet context "PORT" (some objUrl.port)
    let context := jsObjSet context "PROTOCOL" (some objUrl.protocol)
    jsObjSet context "SUBDOMAIN" (subdomainMatch.map (fun g => g.asString))

-- # Result classifier

/-- isCriticalError from the source: the result is unhealthy (truthy) or
its error is the ENDPOINT error. -/
def isCriticalError (result : Result) : Bool :=
  result.unhealthy == some true || result.error == some ERRORS.ENDPOINT

/-- hasResultPassed from the source: the per-result verdict under the two
policy flags. -/
def hasResultPassed (result : Result) (failOnCriticalErrors failOnTimeout : Bool) : Bool :=
  if isCriticalError result && !failOnCriticalErrors then true
  else if result.error == some ERRORS.TIMEOUT && !failOnTimeout then true
  else match result.passed with
    | some p => p
    | none =>
      match result.errorCode with
      | some _ => false
      | none => true

/-- Restatement of the classifier following the five spec rules word by
word, used to compare the code against the spec. -/
def hasResultPassedSpec (result : Result) (failOnCriticalErrors failOnTimeout : Bool) : Bool :=
  if (result.unhealthy == some true || result.error == some ERRORS.ENDPOINT)
      && failOnCriticalErrors == false then true
  else if result.error == some ERRORS.TIMEOUT && failOnTimeout == false then true
  else if result.passed.isSome then result.passed.getD false
  else if result.errorCode.isSome then false
  else true

-- # Execution rule resolution

/-- The chain test.options?.ci?.executionRule from the source. -/
def testCiExecutionRule (test : InternalTest) : Option ExecutionRule :=
  (test.options.bind (fun o => o.ci)).bind (fun c => c.executionRule)

/-- getStrictestExecutionRule from the source. -/
def getStrictestExecutionRule (configRule : ExecutionRule)
    (testRule : Option ExecutionRule) : ExecutionRule :=
  if configRule == ExecutionRule.SKIPPED || testRule == some ExecutionRule.SKIPPED then
    ExecutionRule.SKIPPED
  else if configRule == ExecutionRule.NON_BLOCKING
      || testRule == some ExecutionRule.NON_BLOCKING then
    ExecutionRule.NON_BLOCKING
  else if configRule == ExecutionRule.BLOCKING
      || testRule == some ExecutionRule.BLOCKING then
    ExecutionRule.BLOCKING
  else ExecutionRule.BLOCKING

/-- getExecutionRule from the source.  A missing override or a missing
override rule falls back to the test rule, defaulting to BLOCKING. -/
def getExecutionRule (test : InternalTest)
    (configOverride : Option ConfigOverride) : ExecutionRule :=
  match configOverride with
  | some config =>
    match config.executionRule with
    | some rule => getStrictestExecutionRule rule (testCiExecutionRule test)
    | none => (testCiExecutionRule test).getD ExecutionRule.BLOCKING
  | none => (testCiExecutionRule test).getD ExecutionRule.BLOCKING

/-- Strictness rank of an execution rule under the spec order
skipped > non_blocking > blocking. -/
def executionRuleStrictness : ExecutionRule → Nat
  | ExecutionRule.BLOCKING => 0
  | ExecutionRule.NON_BLOCKING => 1
  | ExecutionRule.SKIPPED => 2

/-- Spec-side resolution: the maximum of the two rules under the strictness
order, an undefined rule being treated as blocking. -/
def resolveExecutionRuleSpec (testRule overrideRule : Option ExecutionRule) : ExecutionRule :=
  let t := testRule.getD ExecutionRule.BLOCKING
  let o := overrideRule.getD ExecutionRule.BLOCKING
  if executionRuleStrictness t ≤ executionRuleStrictness o then o else t

-- # Override resolution (handleConfig)

/-- Whether an override has no keys set (Object.keys length zero). -/
def configOverrideIsEmpty (c : ConfigOverride) : Bool :=
  c.allowInsecureCertificates.isNone && c.basicAuth.isNone && c.body.isNone &&
  c.bodyType.isNone && c.cookies.isNone && c.defaultStepTimeout.isNone &&
  c.deviceIds.isNone && c.executionRule.isNone && c.followRedirects.isNone &&
  c.headers.isNone && c.locations.isNone && c.pollingTimeout.isNone &&
  c.retry.isNone && c.startUrl.isNone && c.startUrlSubstitutionRegex.isNone &&
  c.tunnel.isNone && c.«variables».isNone

/-- handleConfig from the source: the payload carries the resolved
execution rule and the public id, then the recognised override keys, and
for browser or http tests with a (truthy) startUrl override the rendered
start URL. -/
def handleConfig (env : List (String × String)) (parseUrl : String → Option UrlParts)
    (test : InternalTest) (publicId : String) (config : Option ConfigOverride) :
    TestPayload :=
  let executionRule := getExecutionRule test config
  let handledConfig : TestPayload := { executionRule := executionRule, public_id := publicId }
  match config with
  | none => handledConfig
  | some c =>
    if configOverrideIsEmpty c then handledConfig
    else
      let handledConfig := { handledConfig with
        allowInsecureCertificates := c.allowInsecureCertificates,
        basicAuth := c.basicAuth,
        body := c.body,
        bodyType := c.bodyType,
        cookies := c.cookies,
        defaultStepTimeout := c.defaultStepTimeout,
        deviceIds := c.deviceIds,
        followRedirects := c.followRedirects,
        headers := c.headers,
        locations := c.locations,
        pollingTimeout := c.pollingTimeout,
        retry := c.retry,
        startUrlSubstitutionRegex := c.startUrlSubstitutionRegex,
        tunnel := c.tunnel,
        «variables» := c.«variables» }
      match c.startUrl with
      | some startUrl =>
        if (test.type == "browser" || test.subtype == some "http") && startUrl != "" then
          { handledConfig with startUrl := some (template startUrl
              (parseUrlVariables env test.config.request.url
                (parseUrl test.config.request.url))) }
        else handledConfig
      | none => handledConfig

-- # Polling engine (waitForResults)

/-- Modelled from the spec: is5xxError from the api module is not part of
the sources; a failure is classified server-5xx when its attached response
has a status in the 500 range. -/
def is5xxError (e : JsError) : Bool :=
  match e.response with
  | some r => decide (500 ≤ r.status) && decide (r.status ≤ 599)
  | none => false

/-- createFailingResult from the source: the synthesized terminal result
for a TIMEOUT, TUNNEL or ENDPOINT failure. -/
def createFailingResult (errorMessage : ERRORS) (resultId : String)
    (deviceId : String) (dcId : Int) (tunnel : Bool) : PollResult :=
  { dc_id := dcId,
    result := { device := { height := 0, id := deviceId, width := 0 },
                duration := 0,
                error := some errorMessage,
                eventType := "finished",
                passed := some false,
                startUrl := "",
                stepDetails := [],
                tunnel := tunnel },
    resultID := resultId,
    timestamp := 0 }

/-- The per-public-id timeout table of createTriggerResultMap: a plain
object written in trigger-config order, so the last config with a given id
wins; a missing pollingTimeout falls back to the default at write time. -/
def timeoutByPublicId (triggerConfigs : List TriggerConfig) (defaultTimeout : Nat)
    (publicId : String) : Option Nat :=
  triggerConfigs.foldl
    (fun acc trigger =>
      if trigger.id == publicId then some (trigger.config.pollingTimeout.getD defaultTimeout)
      else acc)
    none

/-- The trigger-result built by createTriggerResultMap for one trigger
response: the response spread together with its polling timeout (the
per-public-id entry, else the default) and an empty result. -/
def mkTriggerResult (triggerConfigs : List TriggerConfig) (defaultTimeout : Nat)
    (r : TriggerResponse) : TriggerResult :=
  { public_id := r.public_id,
    result_id := r.result_id,
    device := r.device,
    location := r.location,
    pollingTimeout := (timeoutByPublicId triggerConfigs defaultTimeout r.public_id).getD
      defaultTimeout,
    result := none }

/-- createTriggerResultMap from the source: a Map keyed by result_id (an
existing key keeps its position and its value is replaced), each value
being the trigger response extended with its polling timeout and an empty
result. -/
def createTriggerResultMap (triggerResponses : List TriggerResponse)
    (defaultTimeout : Nat) (triggerConfigs : List TriggerConfig) :
    List (String × TriggerResult) :=
  triggerResponses.foldl
    (fun m triggerResponse =>
      jsObjSet m triggerResponse.result_id
        (mkTriggerResult triggerConfigs defaultTimeout triggerResponse))
    []

/-- Observable inputs of one iteration of the polling loop: the elapsed
time at loop entry, the tunnel liveness flag at the tunnel check, and the
outcome of the poll request. -/
structure IterInput where
  pollingDuration : Nat
  tunnelConnected : Bool
  poll : Except JsError (List PollResult)

/-- Deadline pass of the loop body: pending trigger-results past their
polling timeout receive a synthesized TIMEOUT result. -/
def timeoutFill (hasTunnel : Bool) (pollingDuration : Nat)
    (triggerResults : List TriggerResult) : List TriggerResult :=
  triggerResults.map (fun tr =>
    if tr.result = none ∧ tr.pollingTimeout ≤ pollingDuration then
      { tr with result := some (createFailingResult ERRORS.TIMEOUT tr.result_id
          tr.device tr.location hasTunnel) }
    else tr)

/-- Tunnel pass: when a tunnel exists and has dropped, every pending
trigger-result receives a synthesized TUNNEL result. -/
def tunnelFill (hasTunnel tunnelConnected : Bool)
    (triggerResults : List TriggerResult) : List TriggerResult :=
  if hasTunnel = true ∧ tunnelConnected = false then
    triggerResults.map (fun tr =>
      if tr.result = none then
        { tr with result := some (createFailingResult ERRORS.TUNNEL tr.result_id
            tr.device tr.location hasTunnel) }
      else tr)
  else triggerResults

/-- Degraded-backend fallback: every pending trigger-result receives a
synthesized ENDPOINT result. -/
def endpointFill (hasTunnel : Bool) (triggerResults : List TriggerResult) :
    List TriggerResult :=
  triggerResults.map (fun tr =>
    if tr.result = none then
      { tr with result := some (createFailingResult ERRORS.ENDPOINT tr.result_id
          tr.device tr.location hasTunnel) }
    else tr)

/-- Attachment of polled results: each returned poll result with eventType
finished is stored on the trigger-result of its resultID.  The Map holds at
most one entry per result_id, embedded here as the update of every list
entry carrying that id. -/
def attachResults (triggerResults : List TriggerResult)
    (polledResults : List PollResult) : List TriggerResult :=
  polledResults.foldl
    (fun acc polledResult =>
      if polledResult.result.eventType == "finished" then
        acc.map (fun tr =>
          if tr.result_id == polledResult.resultID then { tr with result := some polledResult }
          else tr)
      else acc)
    triggerResults

/-- Whether every trigger-result has reached a terminal result (the
negation of the while-loop condition). -/
def allAssigned (triggerResults : List TriggerResult) : Bool :=
  triggerResults.all (fun tr => tr.result.isSome)

/-- One iteration of the while loop of waitForResults: the deadline pass,
the tunnel pass, the global-deadline break, then the poll.  A poll failure
classified server-5xx with failOnCriticalErrors unset synthesizes ENDPOINT
results on every still-pending trigger-result; any other failure is
propagated unchanged.  Returns the new state and whether the loop breaks. -/
def loopIter (hasTunnel failOnCriticalErrors : Bool) (maxPollingTimeout : Nat)
    (st : List TriggerResult) (inp : IterInput) :
    Except JsError (List TriggerResult × Bool) :=
  let st1 := timeoutFill hasTunnel inp.pollingDuration st
  let st2 := tunnelFill hasTunnel inp.tunnelConnected st1
  if maxPollingTimeout ≤ inp.pollingDuration then Except.ok (st2, true)
  else
    match inp.poll with
    | Except.error e =>
      if is5xxError e = true ∧ failOnCriticalErrors = false then
        let st3 := endpointFill hasTunnel st2
        Except.ok (st3, allAssigned st3)
      else Except.error e
    | Except.ok polledResults =>
      let st3 := attachResults st2 polledResults
      Except.ok (st3, allAssigned st3)

/-- The while loop of waitForResults, driven by the per-iteration inputs;
none is returned when the supplied schedule ends while results are still
pending (the real loop would keep polling). -/
def runLoop (hasTunnel failOnCriticalErrors : Bool) (maxPollingTimeout : Nat) :
    List IterInput → List TriggerResult → Except JsError (Option (List TriggerResult))
  | [], st => if allAssigned st then Except.ok (some st) else Except.ok none
  | inp :: rest, st =>
    if allAssigned st then Except.ok (some st)
    else
      match loopIter hasTunnel failOnCriticalErrors maxPollingTimeout st inp with
      | Except.error e => Except.error e
      | Except.ok (st2, true) => Except.ok (some st2)
      | Except.ok (st2, false) =>
        runLoop hasTunnel failOnCriticalErrors maxPollingTimeout rest st2

/-- A junk poll result standing in for the non-null assertion on a result
that is always present once the loop has terminated. -/
def defaultPollResult : PollResult :=
  { dc_id := 0,
    result := { device := { height := 0, id := "", width := 0 }, duration := 0,
                eventType := "" },
    resultID := "",
    timestamp := 0 }

/-- One step of the final reduce of waitForResults: the poll result of one
trigger-result appended to the list of its public id. -/
def bundleStep (resultsByPublicId : List (String × List PollResult))
    (tr : TriggerResult) : List (String × List PollResult) :=
  jsObjSet resultsByPublicId tr.public_id
    ((jsLookup resultsByPublicId tr.public_id).getD [] ++
      [tr.result.getD defaultPollResult])

/-- The final reduce of waitForResults: results bundled by public id into a
plain object, insertion order following the trigger-result order. -/
def bundleResults (triggerResults : List TriggerResult) :
    List (String × List PollResult) :=
  triggerResults.foldl bundleStep []

/-- waitForResults from the source, over the explicit iteration inputs.
Math.max over the empty timeout list is negative infinity in the runtime;
with no trigger responses the loop is never entered, so the 0 default here
is unobservable. -/
def waitForResults (inputs : List IterInput)
    (triggerResponses : List TriggerResponse) (defaultTimeout : Nat)
    (triggerConfigs : List TriggerConfig) (hasTunnel failOnCriticalErrors : Bool) :
    Except JsError (Option (List (String × List PollResult))) :=
  let triggerResultMap := createTriggerResultMap triggerResponses defaultTimeout triggerConfigs
  let triggerResults := triggerResultMap.map (fun p => p.2)
  let maxPollingTimeout := (triggerResults.map (fun tr => tr.pollingTimeout)).foldr Nat.max 0
  match runLoop hasTunnel failOnCriticalErrors maxPollingTimeout inputs triggerResults with
  | Except.error e => Except.error e
  | Except.ok none => Except.ok none
  | Except.ok (some final) => Except.ok (some (bundleResults final))

/-- Lookup of the results bundled for one public id, an absent key reading
as the empty list. -/
def lookupResults (m : List (String × List PollResult)) (publicId : String) :
    List PollResult :=
  (jsLookup m publicId).getD []

/-- The metadata projection of a trigger-result used by the invariance
lemmas: its public id, result id and polling timeout. -/
def trMeta (tr : TriggerResult) : String × String × Nat :=
  (tr.public_id, tr.result_id, tr.pollingTimeout)

/-- Every assigned result carries the result id of its trigger-result. -/
def goodResults (st : List TriggerResult) : Prop :=
  ∀ tr ∈ st, ∀ pr, tr.result = some pr → pr.resultID = tr.result_id

-- # Trigger path (getTestsToTrigger and runTests)

/-- A word character of the public id regex (ASCII letters, digits,
underscore). -/
def isWordChar (c : Char) : Bool := c.isAlphanum || c == '_'

/-- Whether an identifier matches the xxx-xxx-xxx public id format. -/
def isPublicIdFormat (s : String) : Bool :=
  match s.toList with
  | [a, b, c, h1, d, e, f, h2, g, h, i] =>
    h1 == '-' && h2 == '-' && ([a, b, c, d, e, f, g, h, i].all isWordChar)
  | _ => false

/-- Identifier normalisation of getTestsToTrigger: a non-matching
identifier keeps the suffix after its last slash. -/
def normalizePublicId (s : String) : String :=
  if isPublicIdFormat s then s
  else ((s.toList.reverse.takeWhile (fun c => c != '/')).reverse).asString

/-- Outcome of the getTest backend call.  The api error classification
helpers are not part of the sources, so the distinguishable outcomes are
embedded as a sum. -/
inductive GetTestOutcome
  | found (test : InternalTest)
  | notFound (message : String)
  | failed (e : JsError)

/-- Intermediate state of getTestsToTrigger. -/
structure GttState where
  overriddenTestsToTrigger : List TestPayload := []
  errorMessages : List String := []
  summary : Summary := createSummary
  tests : List InternalTest := []
deriving DecidableEq

/-- Insertion into the not-found set. -/
def addNotFound (s : List String) (id : String) : List String :=
  if id ∈ s then s else s ++ [id]

/-- Processing of one trigger config by getTestsToTrigger: normalise the
id, look the test up, record a not-found, or build and push the overridden
payload, counting a skipped test in the summary and collecting the others
into the wait list.  The payload push happens before the skipped check, as
in the source. -/
def gttStep (env : List (String × String)) (parseUrl : String → Option UrlParts)
    (api : String → GetTestOutcome) (st : GttState) (tc : TriggerConfig) :
    Except JsError GttState :=
  let id := normalizePublicId tc.id
  match api id with
  | GetTestOutcome.failed e => Except.error e
  | GetTestOutcome.notFound message =>
    Except.ok { st with
      summary := { st.summary with
        testsNotFound := addNotFound st.summary.testsNotFound id },
      errorMessages := st.errorMessages ++
        ["[" ++ id ++ "] Test not found: " ++ message] }
  | GetTestOutcome.found t =>
    let test := { t with suite := tc.suite }
    let overriddenConfig := handleConfig env parseUrl test id (some tc.config)
    let st := { st with
      overriddenTestsToTrigger := st.overriddenTestsToTrigger ++ [overriddenConfig] }
    if overriddenConfig.executionRule = ExecutionRule.SKIPPED then
      Except.ok { st with summary := { st.summary with skipped := st.summary.skipped + 1 } }
    else
      Except.ok { st with tests := st.tests ++ [test] }

/-- The loop of getTestsToTrigger over the trigger configs (the runtime
issues the lookups in parallel; the claims settled here do not depend on
the interleaving, which only affects push order). -/
def gttGo (env : List (String × String)) (parseUrl : String → Option UrlParts)
    (api : String → GetTestOutcome) :
    List TriggerConfig → GttState → Except JsError GttState
  | [], st => Except.ok st
  | tc :: rest, st =>
    match gttStep env parseUrl api st tc with
    | Except.error e => Except.error e
    | Except.ok st2 => gttGo env parseUrl api rest st2

/-- Failure modes of getTestsToTrigger. -/
inductive GetTestsError
  | lookupFailed (e : JsError)
  | noTestsToTrigger
deriving DecidableEq

/-- The successful result of getTestsToTrigger. -/
structure GetTestsResult where
  tests : List InternalTest
  overriddenTestsToTrigger : List TestPayload
  summary : Summary
deriving DecidableEq

/-- getTestsToTrigger from the source. -/
def getTestsToTrigger (env : List (String × String))
    (parseUrl : String → Option UrlParts) (api : String → GetTestOutcome)
    (triggerConfigs : List TriggerConfig) : Except GetTestsError GetTestsResult :=
  match gttGo env parseUrl api triggerConfigs {} with
  | Except.error e => Except.error (GetTestsError.lookupFailed e)
  | Except.ok st =>
    if st.overriddenTestsToTrigger.isEmpty then Except.error GetTestsError.noTestsToTrigger
    else
      Except.ok
        { tests := st.tests,
          overriddenTestsToTrigger := st.overriddenTestsToTrigger,
          summary := st.summary }

/-- The payload built by getTestsToTrigger for one found test. -/
def gttFoundPayload (env : List (String × String)) (parseUrl : String → Option UrlParts)
    (tc : TriggerConfig) (t : InternalTest) : TestPayload :=
  handleConfig env parseUrl { t with suite := tc.suite } (normalizePublicId tc.id)
    (some tc.config)

/-- The payload list getTestsToTrigger submits: one payload per found test,
in config order, the skipped ones included. -/
def gttPayloads (env : List (String × String)) (parseUrl : String → Option UrlParts)
    (api : String → GetTestOutcome) (cfgs : List TriggerConfig) : List TestPayload :=
  cfgs.filterMap (fun tc =>
    match api (normalizePublicId tc.id) with
    | GetTestOutcome.found t => some (gttFoundPayload env parseUrl tc t)
    | _ => none)

/-- The wait list getTestsToTrigger returns: the found tests whose resolved
rule is not skipped. -/
def gttWaitedTests (env : List (String × String)) (parseUrl : String → Option UrlParts)
    (api : String → GetTestOutcome) (cfgs : List TriggerConfig) : List InternalTest :=
  cfgs.filterMap (fun tc =>
    match api (normalizePublicId tc.id) with
    | GetTestOutcome.found t =>
      if (gttFoundPayload env parseUrl tc t).executionRule = ExecutionRule.SKIPPED then none
      else some { t with suite := tc.suite }
    | _ => none)

/-- The number of found tests whose resolved rule is skipped. -/
def gttSkippedCount (env : List (String × String)) (parseUrl : String → Option UrlParts)
    (api : String → GetTestOutcome) (cfgs : List TriggerConfig) : Nat :=
  (cfgs.filter (fun tc =>
    match api (normalizePublicId tc.id) with
    | GetTestOutcome.found t =>
      decide ((gttFoundPayload env parseUrl tc t).executionRule = ExecutionRule.SKIPPED)
    | _ => false)).length

/-- CI metadata discovered by an external helper and supplied as input. -/
structure CIMetadata where
  ci : List (String × String) := []
  git : List (String × String) := []
deriving DecidableEq

/-- The metadata block of a trigger request. -/
structure SyntheticsMetadata where
  ci : List (String × String)
  git : List (String × String)
  trigger_app : String
deriving DecidableEq

/-- The body of a trigger request. -/
structure Payload where
  tests : List TestPayload
  metadata : Option SyntheticsMetadata := none

/-- The backend response of triggerTests. -/
structure Trigger where
  results : List TriggerResponse := []
deriving DecidableEq

/-- The defaults-then-spread construction of the synthetics metadata. -/
def buildSyntheticsMetadata (ciMetadata : Option CIMetadata)
    (ciTriggerApp : String) : SyntheticsMetadata :=
  match ciMetadata with
  | some m => { ci := m.ci, git := m.git, trigger_app := ciTriggerApp }
  | none => { ci := [], git := [], trigger_app := ciTriggerApp }

/-- Modelled from the spec: formatBackendErrors from the api module is not
part of the sources; it renders a backend failure as a message string. -/
def formatBackendErrors (e : JsError) : String := e.message

/-- Errors escaping runTests.  Reading the status of an undefined response
throws a TypeError in the runtime, represented by the dedicated
constructor. -/
inductive RunTestsError
  | endpointError (message : String) (status : Nat)
  | typeErrorReadingStatus
deriving DecidableEq

/-- runTests from the source: build the payload with metadata, submit it,
and on failure rewrite the error into a single EndpointError naming all
submitted public ids and carrying e.response.status; when the failure has
no response the status access itself throws. -/
def runTests (triggerTests : Payload → Except JsError Trigger)
    (ciMetadata : Option CIMetadata) (ciTriggerApp : String)
    (testsToTrigger : List TestPayload) : Except RunTestsError Trigger :=
  let payload : Payload :=
    { tests := testsToTrigger,
      metadata := some (buildSyntheticsMetadata ciMetadata ciTriggerApp) }
  match triggerTests payload with
  | Except.ok t => Except.ok t
  | Except.error e =>
    let errorMessage := formatBackendErrors e
    let testIds := String.intercalate "," (testsToTrigger.map (fun t => t.public_id))
    match e.response with
    | some resp =>
      Except.error (RunTestsError.endpointError
        ("[" ++ testIds ++ "] Failed to trigger tests: " ++ errorMessage ++ "\n")
        resp.status)
    | none => Except.error RunTestsError.typeErrorReadingStatus

/-- Whether a runTests outcome is the wrapping EndpointError. -/
def runTestsThrewWrappingError (r : Except RunTestsError Trigger) : Bool :=
  match r with
  | Except.error (RunTestsError.endpointError _ _) => true
  | _ => false

-- # User-provided git metadata (getUserGitMetadata)

/-- Keys of the emitted git metadata object.  The key-name constants come
from the tags helper, which is not part of the sources, so they are
embedded as an enumeration. -/
inductive GitTag
  | repositoryUrl
  | branch
  | sha
  | tag
  | commitMessage
  | committerDate
  | committerEmail
  | committerName
  | authorDate
  | authorEmail
  | authorName
deriving DecidableEq

/-- The environment variables read by getUserGitMetadata. -/
structure GitEnv where
  DD_GIT_REPOSITORY_URL : Option String := none
  DD_GIT_COMMIT_SHA : Option String := none
  DD_GIT_BRANCH : Option String := none
  DD_GIT_TAG : Option String := none
  DD_GIT_COMMIT_MESSAGE : Option String := none
  DD_GIT_COMMIT_AUTHOR_NAME : Option String := none
  DD_GIT_COMMIT_AUTHOR_EMAIL : Option String := none
  DD_GIT_COMMIT_AUTHOR_DATE : Option String := none
  DD_GIT_COMMIT_COMMITTER_NAME : Option String := none
  DD_GIT_COMMIT_COMMITTER_EMAIL : Option String := none
  DD_GIT_COMMIT_COMMITTER_DATE : Option String := none
deriving DecidableEq

/-- Truthiness of an optional string: undefined and the empty string are
falsy. -/
def jsTruthy : Option String → Bool
  | none => false
  | some s => s != ""

/-- Modelled from the spec: normalizeRef lives in the utils helper, which
is not part of the sources.  Following the ref-normalisation rule of the
spec, a ref is stripped of a tag prefix (refs/heads/tags/, refs/tags/,
origin/tags/) or of a branch prefix (refs/heads/, origin/). -/
def normalizeRefStr (ref : String) : String :=
  if listHasPre "refs/heads/tags/".toList ref.toList then (ref.toList.drop 16).asString
  else if listHasPre "refs/tags/".toList ref.toList then (ref.toList.drop 10).asString
  else if listHasPre "origin/tags/".toList ref.toList then (ref.toList.drop 12).asString
  else if listHasPre "refs/heads/".toList ref.toList then (ref.toList.drop 11).asString
  else if listHasPre "origin/".toList ref.toList then (ref.toList.drop 7).asString
  else ref

/-- Modelled from the spec: normalizeRef on an optional ref. -/
def normalizeRef : Option String → Option String
  | none => none
  | some r => some (normalizeRefStr r)

/-- Modelled from the spec: removeEmptyValues drops undefined and
empty-string values before emission. -/
def removeEmptyValues (l : List (GitTag × Option String)) : List (GitTag × String) :=
  l.filterMap (fun p =>
    match p.2 with
    | some s => if s = "" then none else some (p.1, s)
    | none => none)

/-- The relocation condition of getUserGitMetadata: the supplied branch
contains origin/tags or refs/heads/tags as a substring. -/
def branchRelocated (env : GitEnv) : Bool :=
  match env.DD_GIT_BRANCH with
  | some b => jsIncludes b "origin/tags" || jsIncludes b "refs/heads/tags"
  | none => false

/-- The branch value emitted by getUserGitMetadata: the source normalises
the branch, clears it when DD_GIT_TAG is truthy, and clears it again on
relocation; the two independent clears are flattened here. -/
def gitBranchValue (env : GitEnv) : Option String :=
  if branchRelocated env then none
  else if jsTruthy env.DD_GIT_TAG then none
  else normalizeRef env.DD_GIT_BRANCH

/-- The tag value emitted by getUserGitMetadata: the normalised branch ref
on relocation, the normalised DD_GIT_TAG otherwise. -/
def gitTagValue (env : GitEnv) : Option String :=
  if branchRelocated env then normalizeRef env.DD_GIT_BRANCH
  else normalizeRef env.DD_GIT_TAG

/-- getUserGitMetadata from the source: the emitted object in source field
order, empty values removed. -/
def getUserGitMetadata (env : GitEnv) : List (GitTag × String) :=
  removeEmptyValues
    [(GitTag.repositoryUrl, env.DD_GIT_REPOSITORY_URL),
     (GitTag.branch, gitBranchValue env),
     (GitTag.sha, env.DD_GIT_COMMIT_SHA),
     (GitTag.tag, gitTagValue env),
     (GitTag.commitMessage, env.DD_GIT_COMMIT_MESSAGE),
     (GitTag.committerDate, env.DD_GIT_COMMIT_COMMITTER_DATE),
     (GitTag.committerEmail, env.DD_GIT_COMMIT_COMMITTER_EMAIL),
     (GitTag.committerName, env.DD_GIT_COMMIT_COMMITTER_NAME),
     (GitTag.authorDate, env.DD_GIT_COMMIT_AUTHOR_DATE),
     (GitTag.authorEmail, env.DD_GIT_COMMIT_AUTHOR_EMAIL),
     (GitTag.authorName, env.DD_GIT_COMMIT_AUTHOR_NAME)]

-- # Reporter fan-out (getReporter)

/-- Arguments of the testEnd hook. -/
structure TestEndArgs where
  test : InternalTest
  results : List PollResult
  baseUrl : String
  locationNames : List (String × String)
  failOnCriticalErrors : Bool
  failOnTimeout : Bool

/-- Arguments of the testTrigger hook. -/
structure TestTriggerArgs where
  test : InternalTest
  testId : String
  executionRule : ExecutionRule
  config : ConfigOverride

/-- The hook set of the composite reporter built by getReporter. -/
inductive HookId
  | error
  | initErrors
  | log
  | reportStart
  | runEnd
  | testEnd
  | testTrigger
  | testWait
  | testsWait
deriving DecidableEq

/-- Argument type of each hook. -/
def HookArgType : HookId → Type
  | HookId.error => String
  | HookId.initErrors => List String
  | HookId.log => String
  | HookId.reportStart => Nat
  | HookId.runEnd => Summary
  | HookId.testEnd => TestEndArgs
  | HookId.testTrigger => TestTriggerArgs
  | HookId.testWait => InternalTest
  | HookId.testsWait => List InternalTest

/-- A JavaScript hook function: receives its argument and the ambient
effect log, returns the extended log and optionally a thrown error. -/
def JsHookFun (α : Type) := α → List String → List String × Option JsError

/-- A member reporter: a JavaScript object mapping each hook name either to
a function or to nothing (the typeof check of the source). -/
def Reporter := (id : HookId) → Option (JsHookFun (HookArgType id))

/-- The per-hook dispatch loop of getReporter: for each member in order, if
the property is a function it is called; a member without the hook is
skipped; a thrown error aborts the loop as in the runtime, where no handler
surrounds the call. -/
def forEachHook {α : Type} : List (Option (JsHookFun α)) → α → List String →
    List String × Option JsError
  | [], _, log => (log, none)
  | none :: rest, a, log => forEachHook rest a log
  | some f :: rest, a, log =>
    match f a log with
    | (log2, none) => forEachHook rest a log2
    | (log2, some e) => (log2, some e)

/-- getReporter from the source: the composite reporter forwards each hook
invocation over the member list in registration order. -/
def getReporter (reporters : List Reporter) :
    (id : HookId) → JsHookFun (HookArgType id) :=
  fun id a log => forEachHook (reporters.map (fun r => r id)) a log

/-- Relation between a member hook slot and its observable output used by
the fan-out theorems: a missing hook matches a missing output, an
implemented hook matches an output it appends to any ambient log without
throwing. -/
def HookMatches {α : Type} (a : α) :
    Option (JsHookFun α) → Option (List String) → Prop
  | none, none => True
  | some f, some out => ∀ log, f a log = (log ++ out, none)
  | _, _ => False

/-- Concatenation of the outputs of the implemented members. -/
def concatAll (l : List (List String)) : List String :=
  l.foldr (fun x acc => x ++ acc) []

-- # Concrete instances used by counterexamples and witnesses

/-- A member reporter whose log hook records itself and then throws. -/
def throwingReporter : Reporter := fun id =>
  match id with
  | HookId.log => some (fun _ log => (log ++ ["first"], some { message := "boom" }))
  | _ => none

/-- A member reporter whose log hook records itself and returns. -/
def loggingReporter : Reporter := fun id =>
  match id with
  | HookId.log => some (fun _ log => (log ++ ["second"], none))
  | _ => none

/-- A test whose own ci options resolve to the skipped rule. -/
def skippedTest : InternalTest :=
  { type := "api",
    config := { request := { url := "https://example.com/" } },
    options := some { ci := some { executionRule := some ExecutionRule.SKIPPED } } }

/-- A backend that returns the skipped test for every identifier. -/
def skippedApi : String → GetTestOutcome := fun _ => GetTestOutcome.found skippedTest

/-- A backend failure without an attached HTTP response, as a network-level
error. -/
def noResponseError : JsError := { message := "socket hang up" }

/-- A backend failure carrying a 502 response. -/
def badGatewayError : JsError := { message := "Bad Gateway", response := some ⟨502⟩ }

/-- A trigger endpoint that always fails without a response. -/
def failingTriggerNoResponse : Payload → Except JsError Trigger :=
  fun _ => Except.error noResponseError

/-- The parts of the parsed URL https://example.com/ (a host without a
subdomain). -/
def exampleUrlParts : UrlParts :=
  { host := "example.com", hostname := "example.com",
    origin := "https://example.com", pathname := "/", protocol := "https:" }

/-- A pending trigger-result used by the degraded-fallback witness. -/
def pendingTriggerResult : TriggerResult :=
  { public_id := "aaa-aaa-aaa", result_id := "res-1", device := "chrome.laptop_large",
    location := 1, pollingTimeout := 120, result := none }

/-- Two trigger responses sharing one result id. -/
def duplicateResponses : List TriggerResponse :=
  [{ public_id := "aaa-aaa-aaa", result_id := "res-1", device := "d1", location := 1 },
   { public_id := "bbb-bbb-bbb", result_id := "res-1", device := "d2", location := 2 }]

/-- A single trigger response used by witnesses. -/
def singleResponse : TriggerResponse :=
  { public_id := "aaa-aaa-aaa", result_id := "res-1", device := "d1", location := 1 }

/-- A schedule of one loop iteration at elapsed time 0 whose poll returns
nothing. -/
def emptyPollIteration : List IterInput :=
  [{ pollingDuration := 0, tunnelConnected := true, poll := Except.ok [] }]

/-- The result getTestsToTrigger computes for one config resolving to a
skipped test: the skipped payload is in the submitted list, the wait list
is empty, and the skipped counter is one. -/
def skippedRunExpected : GetTestsResult :=
  { tests := [],
    overriddenTestsToTrigger :=
      [{ executionRule := ExecutionRule.SKIPPED, public_id := "abc-def-ghi" }],
    summary := { skipped := 1 } }

-- # Theorems

/-- C2: for every result and pair of policy flags, hasResultPassed returns
true when the result is unhealthy or has error ENDPOINT and
failOnCriticalErrors is false; otherwise true when the error is TIMEOUT and
failOnTimeout is false; otherwise the value of the passed field when it is
defined; otherwise false when errorCode is defined; otherwise true. -/
theorem hasResultPassed_matches_spec (result : Result)
    (failOnCriticalErrors failOnTimeout : Bool) :
    hasResultPassed result failOnCriticalErrors failOnTimeout =
      hasResultPassedSpec result failOnCriticalErrors failOnTimeout := by
  rcases result with ⟨dev, dur, error, errorCode, ev, passed, su, sd, tn, unhealthy⟩
  cases failOnCriticalErrors <;> cases failOnTimeout <;>
    rcases unhealthy with _ | u <;> (try cases u) <;>
    rcases error with _ | e <;> (try cases e) <;>
    rcases passed with _ | p <;>
    rcases errorCode with _ | c <;>
    rfl

/-- C6: hasResultPassed is monotone in its policy flags: with the other
flag held fixed, flipping failOnCriticalErrors or failOnTimeout from true
to false can only change the verdict from false to true, never the
reverse. -/
theorem hasResultPassed_flag_monotone (result : Result) (fceFixed fotFixed : Bool) :
    (hasResultPassed result true fotFixed = true →
      hasResultPassed result false fotFixed = true) ∧
    (hasResultPassed result fceFixed true = true →
      hasResultPassed result fceFixed false = true) := by
  rcases result with ⟨dev, dur, error, errorCode, ev, passed, su, sd, tn, unhealthy⟩
  cases fceFixed <;> cases fotFixed <;>
    rcases unhealthy with _ | u <;> (try cases u) <;>
    rcases error with _ | e <;> (try cases e) <;>
    rcases passed with _ | p <;> (try cases p) <;>
    rcases errorCode with _ | c <;>
    exact ⟨fun h => by first | rfl | exact h,
      fun h => by first | rfl | exact h⟩

/-- Witness for C6 at a concrete result: a result with a TIMEOUT error and
no verdict passes under failOnTimeout once failOnCriticalErrors is
dropped from true to false. -/
theorem hasResultPassed_flag_monotone_witness :
    hasResultPassed
      { device := ⟨0, "d", 0⟩, duration := 0, eventType := "finished" }
      false true = true :=
  (hasResultPassed_flag_monotone
      { device := ⟨0, "d", 0⟩, duration := 0, eventType := "finished" }
      true true).1 (by decide)

/-- C3: the resolved execution rule equals the maximum of the override rule
and the test rule under the order skipped > non_blocking > blocking, an
undefined value being treated as blocking. -/
theorem getExecutionRule_is_spec_max (test : InternalTest)
    (configOverride : Option ConfigOverride) :
    getExecutionRule test configOverride =
      resolveExecutionRuleSpec (testCiExecutionRule test)
        (configOverride.bind (fun c => c.executionRule)) := by
  rcases h1 : testCiExecutionRule test with _ | tr
  · rcases configOverride with _ | c
    · simp [getExecutionRule, resolveExecutionRuleSpec, h1]
    · rcases h2 : c.executionRule with _ | r
      · simp [getExecutionRule, resolveExecutionRuleSpec, h1, h2]
      · cases r <;>
          simp [getExecutionRule, resolveExecutionRuleSpec, getStrictestExecutionRule,
            executionRuleStrictness, h1, h2]
  · rcases configOverride with _ | c
    · cases tr <;> simp [getExecutionRule, resolveExecutionRuleSpec,
        executionRuleStrictness, h1]
    · rcases h2 : c.executionRule with _ | r
      · cases tr <;> simp [getExecutionRule, resolveExecutionRuleSpec,
          executionRuleStrictness, h1, h2]
      · cases r <;> cases tr <;>
          simp [getExecutionRule, resolveExecutionRuleSpec, getStrictestExecutionRule,
            executionRuleStrictness, h1, h2]

-- ## Object and string lemmas

theorem string_toList_append (s t : String) : (s ++ t).toList = s.toList ++ t.toList := by
  cases s
  cases t
  rfl

theorem list_asString_toList (s : String) : s.toList.asString = s := by
  cases s
  rfl

theorem jsObjSet_cons_ne {κ α : Type} [BEq κ] (p : κ × α) (m : List (κ × α)) (k : κ) (v : α)
    (hp : (p.1 == k) = false) : jsObjSet (p :: m) k v = p :: jsObjSet m k v := by
  by_cases hm : m.any (fun q => q.1 == k)
  · simp [jsObjSet, hp, hm]
  · simp only [Bool.not_eq_true] at hm
    simp [jsObjSet, hp, hm]

theorem jsObjSet_not_mem {κ α : Type} [BEq κ] (m : List (κ × α)) (k : κ) (v : α)
    (h : m.any (fun p => p.1 == k) = false) : jsObjSet m k v = m ++ [(k, v)] := by
  simp [jsObjSet, h]

theorem jsLookup_jsObjSet_self {κ α : Type} [BEq κ] [LawfulBEq κ]
    (m : List (κ × α)) (k : κ) (v : α) :
    jsLookup (jsObjSet m k v) k = some v := by
  induction m with
  | nil => simp [jsObjSet, jsLookup]
  | cons p rest ih =>
    by_cases hp : (p.1 == k) = true
    · have hset : jsObjSet (p :: rest) k v =
          (k, v) :: rest.map (fun q => if q.1 == k then (k, v) else q) := by
        simp [jsObjSet, hp]
      rw [hset]
      simp [jsLookup]
    · rw [Bool.not_eq_true] at hp
      rw [jsObjSet_cons_ne p rest k v hp]
      simp only [jsLookup, List.find?] at ih ⊢
      rw [hp]
      exact ih

theorem jsLookup_map_update_ne {κ α : Type} [BEq κ] [LawfulBEq κ]
    (l : List (κ × α)) (k p0 : κ) (v : α) (h : (p0 == k) = false) :
    jsLookup (l.map (fun r => if r.1 == k then (k, v) else r)) p0 = jsLookup l p0 := by
  have hkp : (k == p0) = false := by
    simp only [beq_eq_false_iff_ne] at h ⊢
    exact fun hk => h hk.symm
  induction l with
  | nil => rfl
  | cons q rest ih =>
    by_cases hq : (q.1 == k) = true
    · have hq1 : (q.1 == p0) = false := by
        simp only [beq_iff_eq] at hq
        rw [hq]
        exact hkp
      simp only [List.map_cons, hq, if_pos]
      simp only [jsLookup, List.find?] at ih ⊢
      rw [hkp, hq1]
      exact ih
    · rw [Bool.not_eq_true] at hq
      simp only [List.map_cons, hq, if_neg, Bool.false_eq_true, not_false_iff]
      simp only [jsLookup, List.find?] at ih ⊢
      cases hq1 : (q.1 == p0) with
      | true => rfl
      | false => exact ih

theorem jsLookup_jsObjSet_ne {κ α : Type} [BEq κ] [LawfulBEq κ]
    (m : List (κ × α)) (k p0 : κ) (v : α) (h : (p0 == k) = false) :
    jsLookup (jsObjSet m k v) p0 = jsLookup m p0 := by
  have hkp : (k == p0) = false := by
    simp only [beq_eq_false_iff_ne] at h ⊢
    exact fun hk => h hk.symm
  induction m with
  | nil => simp [jsObjSet, jsLookup, List.find?, hkp]
  | cons q rest ih =>
    by_cases hq : (q.1 == k) = true
    · have hset : jsObjSet (q :: rest) k v =
          (k, v) :: rest.map (fun r => if r.1 == k then (k, v) else r) := by
        simp [jsObjSet, hq]
      rw [hset]
      simp only [jsLookup, List.find?]
      rw [hkp]
      have hq1 : (q.1 == p0) = false := by
        simp only [beq_iff_eq] at hq
        rw [hq]
        exact hkp
      rw [hq1]
      exact jsLookup_map_update_ne rest k p0 v h
    · rw [Bool.not_eq_true] at hq
      rw [jsObjSet_cons_ne q rest k v hq]
      simp only [jsLookup, List.find?] at ih ⊢
      cases hq1 : (q.1 == p0) with
      | true => rfl
      | false => exact ih

-- ## C8: runTests failure wrapping

/-- C8 (amended): when the backend trigger call fails with an error that
carries an HTTP response, runTests throws a single wrapping EndpointError
whose message names all submitted public ids and which carries the response
status; when the failure has no response, the status access itself throws a
TypeError and no wrapping error is produced. -/
theorem runTests_wraps_failure (triggerTests : Payload → Except JsError Trigger)
    (ciMetadata : Option CIMetadata) (ciTriggerApp : String)
    (testsToTrigger : List TestPayload) (e : JsError)
    (hfail : ∀ p, triggerTests p = Except.error e) :
    (∀ resp, e.response = some resp →
      runTests triggerTests ciMetadata ciTriggerApp testsToTrigger =
        Except.error (RunTestsError.endpointError
          ("[" ++ String.intercalate "," (testsToTrigger.map (fun t => t.public_id)) ++
            "] Failed to trigger tests: " ++ formatBackendErrors e ++ "\n")
          resp.status)) ∧
    (e.response = none →
      runTests triggerTests ciMetadata ciTriggerApp testsToTrigger =
        Except.error RunTestsError.typeErrorReadingStatus) := by
  constructor
  · intro resp hresp
    simp [runTests, hfail, hresp]
  · intro hresp
    simp [runTests, hfail, hresp]

/-- Witness for C8 at a concrete failing trigger call carrying a 502. -/
theorem runTests_wraps_failure_witness :
    runTests (fun _ => Except.error badGatewayError) none "npm_package"
        [{ executionRule := ExecutionRule.BLOCKING, public_id := "aaa-aaa-aaa" }] =
      Except.error (RunTestsError.endpointError
        ("[" ++ String.intercalate ","
            (([{ executionRule := ExecutionRule.BLOCKING,
                 public_id := "aaa-aaa-aaa" }] : List TestPayload).map
              (fun t => t.public_id)) ++
          "] Failed to trigger tests: " ++ formatBackendErrors badGatewayError ++ "\n")
        502) :=
  (runTests_wraps_failure (fun _ => Except.error badGatewayError) none "npm_package"
    [{ executionRule := ExecutionRule.BLOCKING, public_id := "aaa-aaa-aaa" }]
    badGatewayError (fun _ => rfl)).1 ⟨502⟩ rfl

/-- C8 counterexample: a backend failure without an HTTP response (a plain
network error) does not produce the wrapping error naming the public ids;
a TypeError from the status access escapes instead. -/
theorem runTests_no_response_counterexample :
    runTests failingTriggerNoResponse none "npm_package"
        [{ executionRule := ExecutionRule.BLOCKING, public_id := "aaa-aaa-aaa" }] =
      Except.error RunTestsError.typeErrorReadingStatus ∧
    runTestsThrewWrappingError
      (runTests failingTriggerNoResponse none "npm_package"
        [{ executionRule := ExecutionRule.BLOCKING, public_id := "aaa-aaa-aaa" }]) = false := by
  exact ⟨rfl, rfl⟩

-- ## C9: reporter fan-out

theorem forEachHook_loggers {α : Type} (a : α) :
    ∀ (hooks : List (Option (JsHookFun α))) (outs : List (Option (List String)))
      (log : List String),
      List.Forall₂ (HookMatches a) hooks outs →
      forEachHook hooks a log =
        (log ++ concatAll (outs.filterMap (fun o => o)), none) := by
  intro hooks
  induction hooks with
  | nil =>
    intro outs log hrel
    cases hrel
    simp [forEachHook, concatAll]
  | cons h rest ih =>
    intro outs log hrel
    cases hrel with
    | cons hho htail =>
      rename_i o outs2
      cases h with
      | none =>
        cases o with
        | none =>
          simp only [forEachHook, List.filterMap_cons]
          exact ih outs2 log htail
        | some out => exact hho.elim
      | some f =>
        cases o with
        | none => exact hho.elim
        | some out =>
          have hf : f a log = (log ++ out, none) := hho log
          simp only [forEachHook, hf]
          rw [ih outs2 (log ++ out) htail]
          simp [concatAll]

theorem forEachHook_abort {α : Type} (a : α) :
    ∀ (pre : List (Option (JsHookFun α))) (preOuts : List (Option (List String)))
      (g : JsHookFun α) (post : List (Option (JsHookFun α)))
      (log log2 : List String) (e : JsError),
      List.Forall₂ (HookMatches a) pre preOuts →
      g a (log ++ concatAll (preOuts.filterMap (fun o => o))) = (log2, some e) →
      forEachHook (pre ++ some g :: post) a log = (log2, some e) := by
  intro pre
  induction pre with
  | nil =>
    intro preOuts g post log log2 e hrel hg
    cases hrel
    simp only [concatAll, List.filterMap_nil, List.foldr_nil, List.append_nil] at hg
    simp only [List.nil_append, forEachHook, hg]
  | cons h rest ih =>
    intro preOuts g post log log2 e hrel hg
    cases hrel with
    | cons hho htail =>
      rename_i o outs2
      cases h with
      | none =>
        cases o with
        | none =>
          simp only [List.cons_append, forEachHook]
          exact ih outs2 g post log log2 e htail
            (by simpa only [List.filterMap_cons] using hg)
        | some out => exact hho.elim
      | some f =>
        cases o with
        | none => exact hho.elim
        | some out =>
          have hf : f a log = (log ++ out, none) := hho log
          simp only [List.cons_append, forEachHook, hf]
          apply ih outs2 g post (log ++ out) log2 e htail
          simp only [List.filterMap_cons] at hg
          rw [List.append_assoc]
          exact hg

/-- C9 (amended): the composite reporter forwards every hook invocation to
the members implementing that hook, in registration order, silently
skipping members without it; but dispatches are not isolated, so a member
hook that throws aborts the dispatch, the remaining members are not called,
and the thrown error escapes the composite. -/
theorem getReporter_order_and_abort :
    (∀ (reporters : List Reporter) (id : HookId) (a : HookArgType id)
        (log : List String) (outs : List (Option (List String))),
      List.Forall₂ (HookMatches a) (reporters.map (fun r => r id)) outs →
      getReporter reporters id a log =
        (log ++ concatAll (outs.filterMap (fun o => o)), none)) ∧
    (∀ (reporters : List Reporter) (id : HookId) (a : HookArgType id)
        (log log2 : List String)
        (pre post : List (Option (JsHookFun (HookArgType id))))
        (g : JsHookFun (HookArgType id)) (preOuts : List (Option (List String)))
        (e : JsError),
      reporters.map (fun r => r id) = pre ++ some g :: post →
      List.Forall₂ (HookMatches a) pre preOuts →
      g a (log ++ concatAll (preOuts.filterMap (fun o => o))) = (log2, some e) →
      getReporter reporters id a log = (log2, some e)) := by
  constructor
  · intro reporters id a log outs hrel
    exact forEachHook_loggers a (reporters.map (fun r => r id)) outs log hrel
  · intro reporters id a log log2 pre post g preOuts e hmap hrel hg
    unfold getReporter
    rw [hmap]
    exact forEachHook_abort a pre preOuts g post log log2 e hrel hg

/-- Witness for C9: a single logging member is invoked with its output
appended in order. -/
theorem getReporter_order_and_abort_witness :
    getReporter [loggingReporter] HookId.log "m" [] =
      ([] ++ concatAll (([some ["second"]] :
        List (Option (List String))).filterMap (fun o => o)), none) :=
  getReporter_order_and_abort.1 [loggingReporter] HookId.log "m" []
    [some ["second"]] (List.Forall₂.cons (fun _ => rfl) List.Forall₂.nil)

/-- C9 counterexample: with two members both implementing the log hook, the
first of which throws, the dispatch aborts: the second member is never
called (its entry is missing from the effect log) and the error escapes,
contradicting the claim that a throwing member does not prevent the
remaining members from being called. -/
theorem getReporter_throw_counterexample :
    getReporter [throwingReporter, loggingReporter] HookId.log "m" [] =
      (["first"], some { message := "boom" }) ∧
    ("second" ∈ (getReporter [throwingReporter, loggingReporter] HookId.log "m" []).1) =
      False := by
  constructor
  · rfl
  · simp [getReporter, forEachHook, throwingReporter, loggingReporter]

-- ## C7: user-provided git metadata

theorem jsLookup_removeEmptyValues_none (k : GitTag) :
    ∀ (l : List (GitTag × Option String)),
      (∀ p ∈ l, p.1 = k → p.2 = none ∨ p.2 = some "") →
      jsLookup (removeEmptyValues l) k = none := by
  intro l
  induction l with
  | nil => intro h; rfl
  | cons p rest ih =>
    intro h
    have hrest := fun q hq => h q (List.mem_cons_of_mem _ hq)
    rcases p with ⟨pk, pv⟩
    rcases pv with _ | s
    · simp only [removeEmptyValues, List.filterMap_cons]
      exact ih hrest
    · by_cases hs : s = ""
      · subst hs
        simp only [removeEmptyValues, List.filterMap_cons, if_pos]
        exact ih hrest
      · have hpk : pk ≠ k := by
          intro hk
          rcases h (pk, some s) (List.mem_cons_self _ _) hk with h1 | h1
          · exact Option.noConfusion h1
          · exact hs (Option.some.inj h1)
        simp only [removeEmptyValues, List.filterMap_cons, if_neg hs]
        simp only [jsLookup, List.find?]
        have : ((pk, s).1 == k) = false := by
          simp only [beq_eq_false_iff_ne]
          exact hpk
        rw [this]
        exact ih hrest

theorem jsLookup_removeEmptyValues_some (k : GitTag) (v : String) (hv : v ≠ "") :
    ∀ (l₁ l₂ : List (GitTag × Option String)),
      (∀ p ∈ l₁, p.1 ≠ k) →
      jsLookup (removeEmptyValues (l₁ ++ (k, some v) :: l₂)) k = some v := by
  intro l₁
  induction l₁ with
  | nil =>
    intro l₂ h1
    simp only [List.nil_append, removeEmptyValues, List.filterMap_cons, if_neg hv]
    simp [jsLookup, List.find?]
  | cons p rest ih =>
    intro l₂ h1
    have hrest := fun q hq => h1 q (List.mem_cons_of_mem _ hq)
    have hp : p.1 ≠ k := h1 p (List.mem_cons_self _ _)
    rcases p with ⟨pk, pv⟩
    rcases pv with _ | s
    · simp only [List.cons_append, removeEmptyValues, List.filterMap_cons]
      exact ih l₂ hrest
    · by_cases hs : s = ""
      · subst hs
        simp only [List.cons_append, removeEmptyValues, List.filterMap_cons, if_pos]
        exact ih l₂ hrest
      · simp only [List.cons_append, removeEmptyValues, List.filterMap_cons, if_neg hs]
        simp only [jsLookup, List.find?]
        have : ((pk, s).1 == k) = false := by
          simp only [beq_eq_false_iff_ne]
          exact hp
        rw [this]
        exact ih l₂ hrest

/-- C7 (amended): whenever DD_GIT_TAG is supplied non-empty, the branch
field is cleared; and a supplied branch ref CONTAINING origin/tags or
refs/heads/tags as a substring is relocated: the branch field is cleared
and the normalised branch ref is emitted as the tag (when non-empty).  The
refs/tags/ prefix family of the original claim is not part of the check. -/
theorem getUserGitMetadata_tag_and_relocation (env : GitEnv) :
    (∀ t, env.DD_GIT_TAG = some t → t ≠ "" →
      jsLookup (getUserGitMetadata env) GitTag.branch = none) ∧
    (∀ b, env.DD_GIT_BRANCH = some b →
      (jsIncludes b "origin/tags" || jsIncludes b "refs/heads/tags") = true →
      jsLookup (getUserGitMetadata env) GitTag.branch = none ∧
      (normalizeRefStr b ≠ "" →
        jsLookup (getUserGitMetadata env) GitTag.tag = some (normalizeRefStr b))) := by
  have hbranch : ∀ hb : gitBranchValue env = none,
      jsLookup (getUserGitMetadata env) GitTag.branch = none := by
    intro hb
    unfold getUserGitMetadata
    apply jsLookup_removeEmptyValues_none
    intro p hp hk
    simp only [List.mem_cons, List.not_mem_nil, or_false] at hp
    rcases hp with rfl | rfl | rfl | rfl | rfl | rfl | rfl | rfl | rfl | rfl | rfl <;>
      first
      | (exact Or.inl hb)
      | (exact absurd hk (by simp))
  constructor
  · intro t ht hne
    apply hbranch
    unfold gitBranchValue
    by_cases hr : branchRelocated env = true
    · simp [hr]
    · rw [Bool.not_eq_true] at hr
      have htr : jsTruthy env.DD_GIT_TAG = true := by
        rw [ht]
        simp [jsTruthy, hne]
      simp [hr, htr]
  · intro b hb hinc
    have hrel : branchRelocated env = true := by
      unfold branchRelocated
      rw [hb]
      exact hinc
    constructor
    · apply hbranch
      unfold gitBranchValue
      simp [hrel]
    · intro hne
      have htag : gitTagValue env = some (normalizeRefStr b) := by
        unfold gitTagValue
        simp [hrel, hb, normalizeRef]
      show jsLookup (removeEmptyValues
        ([(GitTag.repositoryUrl, env.DD_GIT_REPOSITORY_URL),
          (GitTag.branch, gitBranchValue env),
          (GitTag.sha, env.DD_GIT_COMMIT_SHA)] ++
          (GitTag.tag, gitTagValue env) ::
          [(GitTag.commitMessage, env.DD_GIT_COMMIT_MESSAGE),
           (GitTag.committerDate, env.DD_GIT_COMMIT_COMMITTER_DATE),
           (GitTag.committerEmail, env.DD_GIT_COMMIT_COMMITTER_EMAIL),
           (GitTag.committerName, env.DD_GIT_COMMIT_COMMITTER_NAME),
           (GitTag.authorDate, env.DD_GIT_COMMIT_AUTHOR_DATE),
           (GitTag.authorEmail, env.DD_GIT_COMMIT_AUTHOR_EMAIL),
           (GitTag.authorName, env.DD_GIT_COMMIT_AUTHOR_NAME)])) GitTag.tag =
        some (normalizeRefStr b)
      rw [htag]
      apply jsLookup_removeEmptyValues_some GitTag.tag (normalizeRefStr b) hne
      intro p hp
      simp only [List.mem_cons, List.not_mem_nil, or_false] at hp
      rcases hp with rfl | rfl | rfl <;> simp

/-- Witness for C7 on a branch ref containing origin/tags: the branch is
cleared and the normalised ref lands in the tag field. -/
theorem getUserGitMetadata_tag_and_relocation_witness :
    jsLookup (getUserGitMetadata { DD_GIT_BRANCH := some "origin/tags/v2" })
        GitTag.branch = none ∧
    jsLookup (getUserGitMetadata { DD_GIT_BRANCH := some "origin/tags/v2" })
        GitTag.tag = some (normalizeRefStr "origin/tags/v2") := by
  have h := (getUserGitMetadata_tag_and_relocation
      { DD_GIT_BRANCH := some "origin/tags/v2" }).2 "origin/tags/v2" rfl (by decide)
  exact ⟨h.1, h.2 (by decide)⟩

/-- C7 counterexample: a branch ref with the refs/tags/ prefix is NOT
interpreted as a tag: the branch field survives (normalised, so not
cleared) and no tag is emitted, contrary to the claim. -/
theorem getUserGitMetadata_refs_tags_counterexample :
    jsLookup (getUserGitMetadata { DD_GIT_BRANCH := some "refs/tags/v1" })
        GitTag.branch = some "v1" ∧
    jsLookup (getUserGitMetadata { DD_GIT_BRANCH := some "refs/tags/v1" })
        GitTag.tag = none := by
  constructor
  · decide
  · decide

-- ## C10: template context and SUBDOMAIN substitution

theorem parseUrlVariables_has_subdomain (env : List (String × String)) (url : String)
    (u : UrlParts) :
    jsLookup (parseUrlVariables env url (some u)) "SUBDOMAIN" =
      some ((subdomainSplit u.hostname.toList).map (fun g => g.asString)) := by
  simp only [parseUrlVariables]
  exact jsLookup_jsObjSet_self _ _ _

theorem scanInner_closes : ∀ (l : List Char), braceFree l = true →
    scanInner (l ++ ['\x7d', '\x7d']) = some (l, []) := by
  intro l
  induction l with
  | nil => intro h; rfl
  | cons c rest ih =>
    intro h
    simp only [braceFree, List.all_cons, Bool.and_eq_true, bne_iff_ne, ne_eq] at h
    obtain ⟨⟨hc1, hc2⟩, hrest⟩ := h
    simp only [List.cons_append, scanInner, if_neg hc2, if_neg hc1]
    have h2 := ih (by simpa [braceFree] using hrest)
    simp only [List.append_eq]
    rw [h2]

theorem template_lookup_hit (context : List (String × Option String)) (name : String)
    (v : Option String) (hbf : braceFree name.toList = true)
    (htrim : trimChars name.toList = name.toList)
    (hin : jsLookup context name = some v) :
    template ("\x7b\x7b" ++ name ++ "\x7d\x7d") context = jsToString v := by
  unfold template
  have h1 : ("\x7b\x7b" ++ name ++ "\x7d\x7d").toList
      = '\x7b' :: '\x7b' :: (name.toList ++ ['\x7d', '\x7d']) := by
    rw [string_toList_append, string_toList_append]
    rfl
  rw [h1]
  rw [templateAux]
  rw [scanInner_closes name.toList hbf]
  simp only [htrim, list_asString_toList, hin]
  rw [templateAux]
  rw [List.append_nil]
  exact list_asString_toList _

theorem template_lookup_miss (context : List (String × Option String)) (name : String)
    (hbf : braceFree name.toList = true)
    (htrim : trimChars name.toList = name.toList)
    (hout : jsLookup context name = none) :
    template ("\x7b\x7b" ++ name ++ "\x7d\x7d") context =
      "\x7b\x7b" ++ name ++ "\x7d\x7d" := by
  unfold template
  have h1 : ("\x7b\x7b" ++ name ++ "\x7d\x7d").toList
      = '\x7b' :: '\x7b' :: (name.toList ++ ['\x7d', '\x7d']) := by
    rw [string_toList_append, string_toList_append]
    rfl
  rw [h1]
  rw [templateAux]
  rw [scanInner_closes name.toList hbf]
  simp only [htrim, list_asString_toList, hout]
  rw [templateAux]
  rw [List.append_nil]
  rw [← h1]
  exact list_asString_toList _

/-- C10: when the test URL parses, the template context always contains the
key SUBDOMAIN, its value being undefined when the host has no subdomain; a
placeholder whose (brace-free, trimmed) name is present in the context is
substituted with the String conversion of its value, the undefined value
rendering as the string undefined; a placeholder is left verbatim exactly
when its name is absent from the context. -/
theorem parseUrlVariables_subdomain_always_substituted
    (env : List (String × String)) (url : String) (u : UrlParts)
    (context : List (String × Option String)) (name : String) (v : Option String)
    (hbf : braceFree name.toList = true)
    (htrim : trimChars name.toList = name.toList) :
    jsLookup (parseUrlVariables env url (some u)) "SUBDOMAIN" =
      some ((subdomainSplit u.hostname.toList).map (fun g => g.asString)) ∧
    (jsLookup context name = some v →
      template ("\x7b\x7b" ++ name ++ "\x7d\x7d") context = jsToString v) ∧
    (jsLookup context name = none →
      template ("\x7b\x7b" ++ name ++ "\x7d\x7d") context =
        "\x7b\x7b" ++ name ++ "\x7d\x7d") :=
  ⟨parseUrlVariables_has_subdomain env url u,
   fun hin => template_lookup_hit context name v hbf htrim hin,
   fun hout => template_lookup_miss context name hbf htrim hout⟩

/-- Witness for C10 on https://example.com/ (no subdomain): the SUBDOMAIN
key is present with the undefined value and the placeholder renders as the
string undefined rather than staying verbatim. -/
theorem parseUrlVariables_subdomain_witness :
    template ("\x7b\x7b" ++ "SUBDOMAIN" ++ "\x7d\x7d")
        (parseUrlVariables [] "https://example.com/" (some exampleUrlParts)) =
      jsToString none :=
  (parseUrlVariables_subdomain_always_substituted [] "https://example.com/"
      exampleUrlParts
      (parseUrlVariables [] "https://example.com/" (some exampleUrlParts))
      "SUBDOMAIN" none (by decide) (by decide)).2.1 (by decide)

-- ## C5: degraded-backend fallback in the polling loop

/-- C5: during the polling loop, a poll failure classified server-5xx with
failOnCriticalErrors false synthesizes a terminal ENDPOINT result on every
still-pending trigger-result (passed false, eventType finished, timestamp
0, resultID the result id) and the invocation does not abort; any other
poll failure, or a 5xx failure with failOnCriticalErrors true, is
propagated unchanged and the invocation aborts. -/
theorem loopIter_poll_failure (hasTunnel failOnCriticalErrors : Bool)
    (maxPollingTimeout : Nat) (st : List TriggerResult) (d : Nat) (conn : Bool)
    (e : JsError) (rest : List IterInput) (hd : d < maxPollingTimeout) :
    (is5xxError e = true → failOnCriticalErrors = false →
      loopIter hasTunnel failOnCriticalErrors maxPollingTimeout st
          { pollingDuration := d, tunnelConnected := conn, poll := Except.error e } =
        Except.ok
          (endpointFill hasTunnel (tunnelFill hasTunnel conn (timeoutFill hasTunnel d st)),
           allAssigned
             (endpointFill hasTunnel (tunnelFill hasTunnel conn (timeoutFill hasTunnel d st)))) ∧
      (∀ tr ∈ tunnelFill hasTunnel conn (timeoutFill hasTunnel d st), tr.result = none →
        { tr with result := some (createFailingResult ERRORS.ENDPOINT tr.result_id
            tr.device tr.location hasTunnel) } ∈
          endpointFill hasTunnel (tunnelFill hasTunnel conn (timeoutFill hasTunnel d st)))) ∧
    (¬(is5xxError e = true ∧ failOnCriticalErrors = false) →
      loopIter hasTunnel failOnCriticalErrors maxPollingTimeout st
          { pollingDuration := d, tunnelConnected := conn, poll := Except.error e } =
        Except.error e ∧
      (allAssigned st = false →
        runLoop hasTunnel failOnCriticalErrors maxPollingTimeout
          ({ pollingDuration := d, tunnelConnected := conn, poll := Except.error e } :: rest)
          st = Except.error e)) ∧
    (∀ (rid dev : String) (loc : Int),
      (createFailingResult ERRORS.ENDPOINT rid dev loc hasTunnel).result.error =
        some ERRORS.ENDPOINT ∧
      (createFailingResult ERRORS.ENDPOINT rid dev loc hasTunnel).result.passed =
        some false ∧
      (createFailingResult ERRORS.ENDPOINT rid dev loc hasTunnel).result.eventType =
        "finished" ∧
      (createFailingResult ERRORS.ENDPOINT rid dev loc hasTunnel).timestamp = 0 ∧
      (createFailingResult ERRORS.ENDPOINT rid dev loc hasTunnel).resultID = rid) := by
  refine ⟨?_, ?_, ?_⟩
  · intro h5 hf
    subst hf
    constructor
    · simp only [loopIter]
      rw [if_neg (Nat.not_le.mpr hd)]
      simp [h5]
    · intro tr htr hpend
      unfold endpointFill
      exact List.mem_map.2 ⟨tr, htr, by simp [hpend]⟩
  · intro hno
    have hiter : loopIter hasTunnel failOnCriticalErrors maxPollingTimeout st
        { pollingDuration := d, tunnelConnected := conn, poll := Except.error e } =
        Except.error e := by
      simp only [loopIter]
      rw [if_neg (Nat.not_le.mpr hd)]
      simp [hno]
    refine ⟨hiter, ?_⟩
    intro hall
    simp only [runLoop, hall]
    rw [hiter]
    simp
  · intro rid dev loc
    exact ⟨rfl, rfl, rfl, rfl, rfl⟩

/-- Witness for C5: one pending trigger-result, a 502 poll failure with
failOnCriticalErrors false, before any deadline. -/
theorem loopIter_poll_failure_witness :
    loopIter false false 120 [pendingTriggerResult]
        { pollingDuration := 0, tunnelConnected := true, poll := Except.error badGatewayError } =
      Except.ok
        (endpointFill false (tunnelFill false true (timeoutFill false 0 [pendingTriggerResult])),
         allAssigned
           (endpointFill false (tunnelFill false true (timeoutFill false 0 [pendingTriggerResult])))) :=
  ((loopIter_poll_failure false false 120 [pendingTriggerResult] 0 true
      badGatewayError [] (by decide)).1 (by decide) rfl).1

-- ## C4: skipped tests and the submitted payload list

theorem gttGo_characterization (env : List (String × String))
    (parseUrl : String → Option UrlParts) (api : String → GetTestOutcome) :
    ∀ (cfgs : List TriggerConfig) (st st2 : GttState),
      gttGo env parseUrl api cfgs st = Except.ok st2 →
      st2.overriddenTestsToTrigger =
        st.overriddenTestsToTrigger ++ gttPayloads env parseUrl api cfgs ∧
      st2.summary.skipped = st.summary.skipped + gttSkippedCount env parseUrl api cfgs ∧
      st2.tests = st.tests ++ gttWaitedTests env parseUrl api cfgs := by
  intro cfgs
  induction cfgs with
  | nil =>
    intro st st2 h
    simp only [gttGo] at h
    cases h
    simp [gttPayloads, gttSkippedCount, gttWaitedTests]
  | cons tc rest ih =>
    intro st st2 h
    simp only [gttGo, gttStep] at h
    rcases happ : api (normalizePublicId tc.id) with t | msg | e2 <;>
      simp only [happ] at h
    · by_cases hsk : (handleConfig env parseUrl { t with suite := tc.suite }
          (normalizePublicId tc.id) (some tc.config)).executionRule = ExecutionRule.SKIPPED
      · rw [if_pos hsk] at h
        obtain ⟨h1, h2, h3⟩ := ih _ _ h
        refine ⟨?_, ?_, ?_⟩
        · rw [h1]
          simp [gttPayloads, happ, gttFoundPayload, List.append_assoc]
        · rw [h2]
          simp only [gttSkippedCount, List.filter_cons, happ, gttFoundPayload, hsk]
          simp
          omega
        · rw [h3]
          simp [gttWaitedTests, happ, gttFoundPayload, hsk]
      · rw [if_neg hsk] at h
        obtain ⟨h1, h2, h3⟩ := ih _ _ h
        refine ⟨?_, ?_, ?_⟩
        · rw [h1]
          simp [gttPayloads, happ, gttFoundPayload, List.append_assoc]
        · rw [h2]
          simp only [gttSkippedCount, List.filter_cons, happ, gttFoundPayload, hsk]
          simp
        · rw [h3]
          simp [gttWaitedTests, happ, gttFoundPayload, hsk, List.append_assoc]
    · obtain ⟨h1, h2, h3⟩ := ih _ _ h
      refine ⟨?_, ?_, ?_⟩
      · rw [h1]
        simp [gttPayloads, happ]
      · rw [h2]
        simp [gttSkippedCount, List.filter_cons, happ]
      · rw [h3]
        simp [gttWaitedTests, happ]
    · exact absurd h (by simp)

/-- C4 (amended): a test whose resolved execution rule is skipped IS
included in the payload list submitted to the backend (with executionRule
skipped); it is excluded from the returned wait list, and it is counted in
the skipped counter of the summary. -/
theorem getTestsToTrigger_characterization (env : List (String × String))
    (parseUrl : String → Option UrlParts) (api : String → GetTestOutcome)
    (cfgs : List TriggerConfig) (res : GetTestsResult)
    (h : getTestsToTrigger env parseUrl api cfgs = Except.ok res) :
    res.overriddenTestsToTrigger = gttPayloads env parseUrl api cfgs ∧
    res.tests = gttWaitedTests env parseUrl api cfgs ∧
    res.summary.skipped = gttSkippedCount env parseUrl api cfgs ∧
    (∀ tc ∈ cfgs, ∀ t, api (normalizePublicId tc.id) = GetTestOutcome.found t →
      gttFoundPayload env parseUrl tc t ∈ res.overriddenTestsToTrigger) := by
  unfold getTestsToTrigger at h
  rcases hgo : gttGo env parseUrl api cfgs {} with e | st <;> simp only [hgo] at h
  · exact absurd h (by simp)
  · obtain ⟨h1, h2, h3⟩ := gttGo_characterization env parseUrl api cfgs _ _ hgo
    by_cases hemp : st.overriddenTestsToTrigger.isEmpty
    · rw [if_pos hemp] at h
      exact absurd h (by simp)
    · rw [if_neg hemp] at h
      cases h
      simp only [] at h1 h2 h3
      refine ⟨?_, ?_, ?_, ?_⟩
      · simpa using h1
      · simpa using h3
      · simpa [createSummary] using h2
      · intro tc htc t happ
        have : gttFoundPayload env parseUrl tc t ∈ gttPayloads env parseUrl api cfgs := by
          apply List.mem_filterMap.2
          exact ⟨tc, htc, by rw [happ]⟩
        simp only []
        rw [show st.overriddenTestsToTrigger = gttPayloads env parseUrl api cfgs by simpa using h1]
        exact this

/-- Witness for C4 on a backend returning a skipped test for one config:
the skipped payload is a member of the submitted payload list. -/
theorem getTestsToTrigger_characterization_witness :
    gttFoundPayload [] (fun _ => none) { id := "abc-def-ghi", config := {} } skippedTest ∈
      skippedRunExpected.overriddenTestsToTrigger :=
  (getTestsToTrigger_characterization [] (fun _ => none) skippedApi
      [{ id := "abc-def-ghi", config := {} }] skippedRunExpected rfl).2.2.2
    { id := "abc-def-ghi", config := {} } (by simp) skippedTest rfl

/-- C4 counterexample: with one trigger config whose test resolves to the
skipped rule, getTestsToTrigger still pushes a payload for it into the
submitted list, contrary to the claim that no payload is included. -/
theorem getTestsToTrigger_skipped_counterexample :
    (getTestsToTrigger [] (fun _ => none) skippedApi
        [{ id := "abc-def-ghi", config := {} }]).map
        (fun res => res.overriddenTestsToTrigger.map
          (fun p => (p.public_id, p.executionRule))) =
      Except.ok [("abc-def-ghi", ExecutionRule.SKIPPED)] := by
  rfl

-- ## C1: waitForResults output structure

theorem le_foldr_max : ∀ (l : List Nat) (x : Nat), x ∈ l → x ≤ l.foldr Nat.max 0 := by
  intro l
  induction l with
  | nil => intro x hx; cases hx
  | cons a rest ih =>
    intro x hx
    rcases List.mem_cons.1 hx with rfl | hx2
    · simp [Nat.le_max_left]
    · exact le_trans (ih x hx2) (by simp [Nat.le_max_right])

theorem createTriggerResultMap_go (defaultTimeout : Nat) (cfgs : List TriggerConfig) :
    ∀ (rs : List TriggerResponse) (m : List (String × TriggerResult)),
      (rs.map (fun r => r.result_id)).Nodup →
      (∀ r ∈ rs, m.any (fun p => p.1 == r.result_id) = false) →
      rs.foldl (fun m r => jsObjSet m r.result_id (mkTriggerResult cfgs defaultTimeout r)) m =
        m ++ rs.map (fun r => (r.result_id, mkTriggerResult cfgs defaultTimeout r)) := by
  intro rs
  induction rs with
  | nil => intro m _ _; simp
  | cons r rest ih =>
    intro m hnd hfresh
    rw [List.map_cons] at hnd
    have hnd2 := List.nodup_cons.1 hnd
    simp only [List.foldl_cons]
    rw [jsObjSet_not_mem _ _ _ (hfresh r (List.mem_cons_self _ _))]
    rw [ih (m ++ [(r.result_id, mkTriggerResult cfgs defaultTimeout r)]) hnd2.2 ?fresh]
    · simp
    case fresh =>
      intro q hq
      have h1 := hfresh q (List.mem_cons_of_mem _ hq)
      have h2 : (r.result_id == q.result_id) = false := by
        simp only [beq_eq_false_iff_ne]
        intro he
        exact hnd2.1 (by rw [he]; exact List.mem_map_of_mem _ hq)
      simp [List.any_append, h1, h2]

theorem createTriggerResultMap_eq (rs : List TriggerResponse) (d : Nat)
    (cfgs : List TriggerConfig) (hnd : (rs.map (fun r => r.result_id)).Nodup) :
    createTriggerResultMap rs d cfgs =
      rs.map (fun r => (r.result_id, mkTriggerResult cfgs d r)) := by
  unfold createTriggerResultMap
  have := createTriggerResultMap_go d cfgs rs [] hnd (by intro r hr; rfl)
  simpa using this

theorem timeoutFill_meta (hT : Bool) (d : Nat) : ∀ (st : List TriggerResult),
    (timeoutFill hT d st).map trMeta = st.map trMeta := by
  intro st
  induction st with
  | nil => rfl
  | cons tr rest ih =>
    simp only [timeoutFill, List.map_cons] at ih ⊢
    congr 1
    split <;> rfl

theorem map_update_meta (pr : PollResult) : ∀ (st : List TriggerResult),
    (st.map (fun tr => if tr.result_id == pr.resultID then { tr with result := some pr }
      else tr)).map trMeta = st.map trMeta := by
  intro st
  induction st with
  | nil => rfl
  | cons tr rest ih =>
    simp only [List.map_cons] at ih ⊢
    congr 1
    split <;> rfl

theorem tunnelFill_meta (hT conn : Bool) (st : List TriggerResult) :
    (tunnelFill hT conn st).map trMeta = st.map trMeta := by
  unfold tunnelFill
  split
  · induction st with
    | nil => rfl
    | cons tr rest ih =>
      simp only [List.map_cons] at ih ⊢
      congr 1
      split <;> rfl
  · rfl

theorem endpointFill_meta (hT : Bool) (st : List TriggerResult) :
    (endpointFill hT st).map trMeta = st.map trMeta := by
  unfold endpointFill
  induction st with
  | nil => rfl
  | cons tr rest ih =>
    simp only [List.map_cons] at ih ⊢
    congr 1
    split <;> rfl

theorem attachResults_meta : ∀ (rs : List PollResult) (st : List TriggerResult),
    (attachResults st rs).map trMeta = st.map trMeta := by
  intro rs
  induction rs with
  | nil => intro st; rfl
  | cons pr rest ih =>
    intro st
    simp only [attachResults, List.foldl_cons]
    split
    · have h1 := ih (st.map (fun tr => if tr.result_id == pr.resultID
        then { tr with result := some pr } else tr))
      simp only [attachResults] at h1
      rw [h1, map_update_meta]
    · exact ih st

theorem timeoutFill_good (hT : Bool) (d : Nat) (st : List TriggerResult)
    (h : goodResults st) : goodResults (timeoutFill hT d st) := by
  intro tr2 htr2 pr hpr
  rcases List.mem_map.1 htr2 with ⟨tr, htr, rfl⟩
  by_cases hc : tr.result = none ∧ tr.pollingTimeout ≤ d
  · rw [if_pos hc] at hpr ⊢
    cases hpr
    rfl
  · rw [if_neg hc] at hpr ⊢
    exact h tr htr pr hpr

theorem tunnelFill_good (hT conn : Bool) (st : List TriggerResult)
    (h : goodResults st) : goodResults (tunnelFill hT conn st) := by
  unfold tunnelFill
  split
  · intro tr2 htr2 pr hpr
    rcases List.mem_map.1 htr2 with ⟨tr, htr, rfl⟩
    by_cases hc : tr.result = none
    · rw [if_pos hc] at hpr ⊢
      cases hpr
      rfl
    · rw [if_neg hc] at hpr ⊢
      exact h tr htr pr hpr
  · exact h

theorem endpointFill_good (hT : Bool) (st : List TriggerResult)
    (h : goodResults st) : goodResults (endpointFill hT st) := by
  intro tr2 htr2 pr hpr
  rcases List.mem_map.1 htr2 with ⟨tr, htr, rfl⟩
  by_cases hc : tr.result = none
  · rw [if_pos hc] at hpr ⊢
    cases hpr
    rfl
  · rw [if_neg hc] at hpr ⊢
    exact h tr htr pr hpr

theorem attach_step_good (pr : PollResult) (st : List TriggerResult)
    (h : goodResults st) :
    goodResults (st.map (fun tr => if tr.result_id == pr.resultID
      then { tr with result := some pr } else tr)) := by
  intro tr2 htr2 pr2 hpr2
  rcases List.mem_map.1 htr2 with ⟨tr, htr, rfl⟩
  by_cases hc : (tr.result_id == pr.resultID) = true
  · rw [if_pos hc] at hpr2 ⊢
    cases hpr2
    simp only [beq_iff_eq] at hc
    exact hc.symm
  · rw [Bool.not_eq_true] at hc
    rw [if_neg (by simp [hc])] at hpr2 ⊢
    exact h tr htr pr2 hpr2

theorem attachResults_good : ∀ (rs : List PollResult) (st : List TriggerResult),
    goodResults st → goodResults (attachResults st rs) := by
  intro rs
  induction rs with
  | nil => intro st h; exact h
  | cons pr rest ih =>
    intro st h
    simp only [attachResults, List.foldl_cons]
    split
    · have h2 := ih (st.map (fun tr => if tr.result_id == pr.resultID
        then { tr with result := some pr } else tr)) (attach_step_good pr st h)
      simpa only [attachResults] using h2
    · exact ih st h

theorem timeoutFill_all_of_deadline (hT : Bool) (d maxPT : Nat) (st : List TriggerResult)
    (hb : ∀ tr ∈ st, tr.pollingTimeout ≤ maxPT) (hd : maxPT ≤ d) :
    allAssigned (timeoutFill hT d st) = true := by
  simp only [allAssigned, List.all_eq_true]
  intro tr2 htr2
  rcases List.mem_map.1 htr2 with ⟨tr, htr, rfl⟩
  by_cases hc : tr.result = none ∧ tr.pollingTimeout ≤ d
  · rw [if_pos hc]
    rfl
  · rw [if_neg hc]
    rcases hr : tr.result with _ | pr
    · exact absurd ⟨hr, le_trans (hb tr htr) hd⟩ hc
    · simp [Option.isSome, hr]

theorem tunnelFill_all (hT conn : Bool) (st : List TriggerResult)
    (h : allAssigned st = true) : allAssigned (tunnelFill hT conn st) = true := by
  unfold tunnelFill
  split
  · simp only [allAssigned, List.all_eq_true] at h ⊢
    intro tr2 htr2
    rcases List.mem_map.1 htr2 with ⟨tr, htr, rfl⟩
    split
    · rfl
    · exact h tr htr
  · exact h

theorem loopIter_meta (hT fce : Bool) (maxPT : Nat) (st : List TriggerResult)
    (inp : IterInput) (st2 : List TriggerResult) (b : Bool)
    (h : loopIter hT fce maxPT st inp = Except.ok (st2, b)) :
    st2.map trMeta = st.map trMeta := by
  obtain ⟨d, conn, poll⟩ := inp
  rcases poll with e | prs <;> simp only [loopIter] at h
  · split at h
    · simp only [Except.ok.injEq, Prod.mk.injEq] at h
      obtain ⟨h1, h2⟩ := h
      subst h1
      rw [tunnelFill_meta, timeoutFill_meta]
    · split at h
      · simp only [Except.ok.injEq, Prod.mk.injEq] at h
        obtain ⟨h1, h2⟩ := h
        subst h1
        rw [endpointFill_meta, tunnelFill_meta, timeoutFill_meta]
      · exact absurd h (by simp)
  · split at h
    · simp only [Except.ok.injEq, Prod.mk.injEq] at h
      obtain ⟨h1, h2⟩ := h
      subst h1
      rw [tunnelFill_meta, timeoutFill_meta]
    · simp only [Except.ok.injEq, Prod.mk.injEq] at h
      obtain ⟨h1, h2⟩ := h
      subst h1
      rw [attachResults_meta, tunnelFill_meta, timeoutFill_meta]

theorem loopIter_good (hT fce : Bool) (maxPT : Nat) (st : List TriggerResult)
    (inp : IterInput) (st2 : List TriggerResult) (b : Bool)
    (hg : goodResults st)
    (h : loopIter hT fce maxPT st inp = Except.ok (st2, b)) :
    goodResults st2 := by
  obtain ⟨d, conn, poll⟩ := inp
  rcases poll with e | prs <;> simp only [loopIter] at h
  · split at h
    · simp only [Except.ok.injEq, Prod.mk.injEq] at h
      obtain ⟨h1, h2⟩ := h
      subst h1
      exact tunnelFill_good _ _ _ (timeoutFill_good _ _ _ hg)
    · split at h
      · simp only [Except.ok.injEq, Prod.mk.injEq] at h
        obtain ⟨h1, h2⟩ := h
        subst h1
        exact endpointFill_good _ _ (tunnelFill_good _ _ _ (timeoutFill_good _ _ _ hg))
      · exact absurd h (by simp)
  · split at h
    · simp only [Except.ok.injEq, Prod.mk.injEq] at h
      obtain ⟨h1, h2⟩ := h
      subst h1
      exact tunnelFill_good _ _ _ (timeoutFill_good _ _ _ hg)
    · simp only [Except.ok.injEq, Prod.mk.injEq] at h
      obtain ⟨h1, h2⟩ := h
      subst h1
      exact attachResults_good _ _ (tunnelFill_good _ _ _ (timeoutFill_good _ _ _ hg))

theorem loopIter_break_assigned (hT fce : Bool) (maxPT : Nat) (st : List TriggerResult)
    (inp : IterInput) (st2 : List TriggerResult)
    (hb : ∀ tr ∈ st, tr.pollingTimeout ≤ maxPT)
    (h : loopIter hT fce maxPT st inp = Except.ok (st2, true)) :
    allAssigned st2 = true := by
  obtain ⟨d, conn, poll⟩ := inp
  rcases poll with e | prs <;> simp only [loopIter] at h
  · split at h
    · rename_i hcond
      simp only [Except.ok.injEq, Prod.mk.injEq] at h
      obtain ⟨h1, h2⟩ := h
      subst h1
      exact tunnelFill_all _ _ _ (timeoutFill_all_of_deadline _ _ _ _ hb hcond)
    · split at h
      · simp only [Except.ok.injEq, Prod.mk.injEq] at h
        obtain ⟨h1, h2⟩ := h
        subst h1
        exact h2
      · exact absurd h (by simp)
  · split at h
    · rename_i hcond
      simp only [Except.ok.injEq, Prod.mk.injEq] at h
      obtain ⟨h1, h2⟩ := h
      subst h1
      exact tunnelFill_all _ _ _ (timeoutFill_all_of_deadline _ _ _ _ hb hcond)
    · simp only [Except.ok.injEq, Prod.mk.injEq] at h
      obtain ⟨h1, h2⟩ := h
      subst h1
      exact h2

theorem bound_of_meta (st st2 : List TriggerResult)
    (hmeta : st2.map trMeta = st.map trMeta) (m : Nat)
    (hb : ∀ tr ∈ st, tr.pollingTimeout ≤ m) :
    ∀ tr ∈ st2, tr.pollingTimeout ≤ m := by
  intro tr htr
  have hmem : trMeta tr ∈ st.map trMeta := by
    rw [← hmeta]
    exact List.mem_map_of_mem _ htr
  rcases List.mem_map.1 hmem with ⟨x, hx, he⟩
  have hpt : x.pollingTimeout = tr.pollingTimeout := congrArg (fun t => t.2.2) he
  rw [← hpt]
  exact hb x hx

theorem runLoop_ok_some (hT fce : Bool) (maxPT : Nat) :
    ∀ (inputs : List IterInput) (st final : List TriggerResult),
      (∀ tr ∈ st, tr.pollingTimeout ≤ maxPT) → goodResults st →
      runLoop hT fce maxPT inputs st = Except.ok (some final) →
      final.map trMeta = st.map trMeta ∧ goodResults final ∧ allAssigned final = true := by
  intro inputs
  induction inputs with
  | nil =>
    intro st final hb hg h
    simp only [runLoop] at h
    split at h
    · rename_i hall
      simp only [Except.ok.injEq, Option.some.injEq] at h
      subst h
      exact ⟨rfl, hg, hall⟩
    · exact absurd h (by simp)
  | cons inp rest ih =>
    intro st final hb hg h
    simp only [runLoop] at h
    split at h
    · rename_i hall
      simp only [Except.ok.injEq, Option.some.injEq] at h
      subst h
      exact ⟨rfl, hg, hall⟩
    · rcases hiter : loopIter hT fce maxPT st inp with e | ⟨st2, b⟩ <;> rw [hiter] at h
      · exact absurd h (by simp)
      · cases b
        · have hmeta := loopIter_meta hT fce maxPT st inp st2 false hiter
          obtain ⟨hm, hg2, ha⟩ := ih st2 final
            (bound_of_meta st st2 hmeta maxPT hb)
            (loopIter_good hT fce maxPT st inp st2 false hg hiter) h
          exact ⟨by rw [hm, hmeta], hg2, ha⟩
        · simp only [Except.ok.injEq, Option.some.injEq] at h
          subst h
          exact ⟨loopIter_meta hT fce maxPT st inp st2 true hiter,
            loopIter_good hT fce maxPT st inp st2 true hg hiter,
            loopIter_break_assigned hT fce maxPT st inp st2 hb hiter⟩

theorem bundleStep_lookup (m : List (String × List PollResult)) (tr : TriggerResult)
    (p : String) :
    (jsLookup (bundleStep m tr) p).getD [] =
      (jsLookup m p).getD [] ++
        (if tr.public_id == p then [tr.result.getD defaultPollResult] else []) := by
  unfold bundleStep
  by_cases hp : (tr.public_id == p) = true
  · have hpe : tr.public_id = p := by simpa using hp
    subst hpe
    rw [jsLookup_jsObjSet_self]
    simp
  · rw [Bool.not_eq_true] at hp
    have hp2 : (p == tr.public_id) = false := by
      simp only [beq_eq_false_iff_ne] at hp ⊢
      exact fun he => hp he.symm
    rw [jsLookup_jsObjSet_ne _ _ _ _ hp2]
    simp [hp]

theorem bundle_fold_lookup (p : String) : ∀ (trs : List TriggerResult)
    (m : List (String × List PollResult)),
    (jsLookup (trs.foldl bundleStep m) p).getD [] =
      (jsLookup m p).getD [] ++
        (trs.filter (fun tr => tr.public_id == p)).map
          (fun tr => tr.result.getD defaultPollResult) := by
  intro trs
  induction trs with
  | nil => intro m; simp
  | cons tr rest ih =>
    intro m
    simp only [List.foldl_cons]
    rw [ih (bundleStep m tr), bundleStep_lookup]
    by_cases hp : (tr.public_id == p) = true
    · simp [List.filter_cons, hp, List.append_assoc]
    · rw [Bool.not_eq_true] at hp
      simp [List.filter_cons, hp]

theorem lookupResults_bundleResults (trs : List TriggerResult) (p : String) :
    lookupResults (bundleResults trs) p =
      (trs.filter (fun tr => tr.public_id == p)).map
        (fun tr => tr.result.getD defaultPollResult) := by
  unfold lookupResults bundleResults
  rw [bundle_fold_lookup]
  simp [jsLookup]

theorem filter_map_rid_of_meta (p : String) : ∀ (l1 l2 : List TriggerResult),
    l1.map trMeta = l2.map trMeta →
    (l1.filter (fun tr => tr.public_id == p)).map (fun tr => tr.result_id) =
      (l2.filter (fun tr => tr.public_id == p)).map (fun tr => tr.result_id) := by
  intro l1
  induction l1 with
  | nil =>
    intro l2 h
    cases l2 with
    | nil => rfl
    | cons b rest2 => simp at h
  | cons a rest ih =>
    intro l2 h
    cases l2 with
    | nil => simp at h
    | cons b rest2 =>
      simp only [List.map_cons, List.cons.injEq] at h
      obtain ⟨hab, htail⟩ := h
      have hpid : a.public_id = b.public_id := congrArg (fun t => t.1) hab
      have hrid : a.result_id = b.result_id := congrArg (fun t => t.2.1) hab
      simp only [List.filter_cons]
      by_cases hp : (a.public_id == p) = true
      · have hp2 : (b.public_id == p) = true := by rw [← hpid]; exact hp
        simp only [hp, hp2, if_true, List.map_cons]
        rw [hrid, ih rest2 htail]
      · rw [Bool.not_eq_true] at hp
        have hp2 : (b.public_id == p) = false := by rw [← hpid]; exact hp
        simp only [hp, hp2, Bool.false_eq_true, if_false]
        exact ih rest2 htail

theorem filtered_resultID (p : String) (st : List TriggerResult)
    (hg : goodResults st) (ha : allAssigned st = true) :
    ((st.filter (fun tr => tr.public_id == p)).map
        (fun tr => tr.result.getD defaultPollResult)).map (fun pr => pr.resultID) =
      (st.filter (fun tr => tr.public_id == p)).map (fun tr => tr.result_id) := by
  rw [List.map_map]
  apply List.map_congr_left
  intro tr htr
  have htr2 : tr ∈ st := List.mem_of_mem_filter htr
  have hsome := (List.all_eq_true.1 ha) tr htr2
  rcases hres : tr.result with _ | pr
  · rw [hres] at hsome
    simp at hsome
  · simp only [Function.comp_apply, hres, Option.getD_some]
    exact hg tr htr2 pr hres

theorem filter_map_mk (p : String) (cfgs : List TriggerConfig) (d : Nat) :
    ∀ (rs : List TriggerResponse),
    ((rs.map (mkTriggerResult cfgs d)).filter (fun tr => tr.public_id == p)).map
        (fun tr => tr.result_id) =
      (rs.filter (fun r => r.public_id == p)).map (fun r => r.result_id) := by
  intro rs
  induction rs with
  | nil => rfl
  | cons r rest ih =>
    simp only [List.map_cons, List.filter_cons]
    by_cases hp : (r.public_id == p) = true
    · have hp2 : ((mkTriggerResult cfgs d r).public_id == p) = true := hp
      simp only [hp, hp2, if_true, List.map_cons]
      rw [ih]
      rfl
    · rw [Bool.not_eq_true] at hp
      have hp2 : ((mkTriggerResult cfgs d r).public_id == p) = false := hp
      simp only [hp, hp2, Bool.false_eq_true, if_false]
      exact ih

/-- C1 (amended): provided the submitted trigger responses carry pairwise
distinct result ids, the mapping returned by waitForResults contains, for
every public id, exactly one PollResult per trigger response with that
public id, whose resultID equals that trigger response result_id, in the
order in which the trigger responses were given; public ids with no
trigger response have no entry. -/
theorem waitForResults_per_public_id (inputs : List IterInput)
    (rs : List TriggerResponse) (d : Nat) (cfgs : List TriggerConfig)
    (hT fce : Bool) (final : List (String × List PollResult))
    (hnd : (rs.map (fun r => r.result_id)).Nodup)
    (hok : waitForResults inputs rs d cfgs hT fce = Except.ok (some final)) :
    ∀ p, (lookupResults final p).map (fun pr => pr.resultID) =
      (rs.filter (fun r => r.public_id == p)).map (fun r => r.result_id) := by
  intro p
  simp only [waitForResults] at hok
  rw [createTriggerResultMap_eq rs d cfgs hnd] at hok
  rw [show (rs.map (fun r => (r.result_id, mkTriggerResult cfgs d r))).map
      (fun q => q.2) = rs.map (mkTriggerResult cfgs d) by rw [List.map_map]; rfl] at hok
  split at hok
  · exact absurd hok (by simp)
  · exact absurd hok (by simp)
  · rename_i fst heq
    simp only [Except.ok.injEq, Option.some.injEq] at hok
    subst hok
    obtain ⟨hm, hg, ha⟩ := runLoop_ok_some hT fce
      (((rs.map (mkTriggerResult cfgs d)).map (fun tr => tr.pollingTimeout)).foldr
        Nat.max 0)
      inputs (rs.map (mkTriggerResult cfgs d)) fst
      (fun tr htr => le_foldr_max _ _ (List.mem_map_of_mem _ htr))
      (by
        intro tr htr pr hpr
        rcases List.mem_map.1 htr with ⟨r, hr, rfl⟩
        exact Option.noConfusion hpr)
      heq
    rw [lookupResults_bundleResults]
    rw [filtered_resultID p fst hg ha]
    rw [filter_map_rid_of_meta p fst (rs.map (mkTriggerResult cfgs d)) hm]
    exact filter_map_mk p cfgs d rs

/-- Witness for C1 at one trigger response that times out immediately. -/
theorem waitForResults_per_public_id_witness :
    (lookupResults
        [("aaa-aaa-aaa", [createFailingResult ERRORS.TIMEOUT "res-1" "d1" 1 false])]
        "aaa-aaa-aaa").map (fun pr => pr.resultID) =
      (([singleResponse]).filter (fun r => r.public_id == "aaa-aaa-aaa")).map
        (fun r => r.result_id) :=
  waitForResults_per_public_id emptyPollIteration [singleResponse] 0 [] false false
    [("aaa-aaa-aaa", [createFailingResult ERRORS.TIMEOUT "res-1" "d1" 1 false])]
    (by decide) rfl "aaa-aaa-aaa"

/-- C1 counterexample: two trigger responses sharing one result id collapse
to a single Map entry, so the output carries no PollResult at all for the
first response public id, contrary to the claim that every submitted
trigger response has exactly one PollResult in the mapping. -/
theorem waitForResults_duplicate_counterexample :
    waitForResults emptyPollIteration duplicateResponses 0 [] false false =
      Except.ok (some [("bbb-bbb-bbb",
        [createFailingResult ERRORS.TIMEOUT "res-1" "d2" 2 false])]) ∧
    (lookupResults
        [("bbb-bbb-bbb", [createFailingResult ERRORS.TIMEOUT "res-1" "d2" 2 false])]
        "aaa-aaa-aaa").map (fun pr => pr.resultID) ≠
      (duplicateResponses.filter (fun r => r.public_id == "aaa-aaa-aaa")).map
        (fun r => r.result_id) := by
  constructor
  · rfl
  · decide
